import Mathlib

/-!
# Verification of the Mirror's Edge camera-recovery proxy (src/d3d9_proxy.cpp)

Shallow embedding of the camera matrix recovery engine of `src/d3d9_proxy.cpp`:
matrix algebra helpers (`MultiplyMatrix4x4`, `TransposeMatrix4x4`,
`CreateIdentityMatrix`, `InvertView`, `InvertProj`), the candidate scorer
(`ScoreAsVP`), the decomposer (`DecomposeVP_ColMajor`) and the per-device
detection state machine of `WrappedD3D9Device` (`SetVertexShaderConstantF`,
`Present`, `BeginScene`).

Modelling conventions:
* C `float` arithmetic is idealised as exact real arithmetic (`ℝ`); a raw
  shader-constant value is a `FloatVal`, which is either a finite real or one
  of the non-finite IEEE values (`nan`, `posInf`, `negInf`), so that the
  `isfinite` gate of `ScoreAsVP` is representable.  Arithmetic is only ever
  performed on values that passed that gate in the code paths the theorems
  speak about; `FloatVal.toReal` maps non-finite values to the junk value 0.
* A `D3DMATRIX` is `M4 := Fin 4 → Fin 4 → ℝ`; the C field `_RC` (1-based) is
  the entry `(R-1) (C-1)` here, and a raw 16-float block read as a `D3DMATRIX`
  has entry `(r, c)` at flat index `4*r + c` (row-major), see `blockToM4`.
* The logging machinery (`LogMsg`, diagnostic windows/counters, the static
  `loggedProj` flag, `g_frameCount`) only writes to the log file and never
  influences the detection state, the committed matrices or the transforms
  pushed to the device, so it is omitted from the state model.
* The calls `m_real->SetTransform(...)` are the engine's only outputs to the
  transform sink; each step function returns the list of such calls, in
  program order, as `TransformCall`s.
-/

namespace D3D9Proxy

/-- One raw 32-bit shader-constant value: a finite real, or one of the
IEEE non-finite values rejected by the scorer's `isfinite` gate. -/
inductive FloatVal where
  | finite : ℝ → FloatVal
  | nan : FloatVal
  | posInf : FloatVal
  | negInf : FloatVal

/-- C `isfinite`: true exactly on finite values. -/
def FloatVal.isfinite : FloatVal → Bool
  | .finite _ => true
  | _ => false

/-- The real number carried by a finite value; non-finite values map to the
junk value 0 (they never reach arithmetic in the verified code paths). -/
def FloatVal.toReal : FloatVal → ℝ
  | .finite x => x
  | _ => 0

/-- A 16-float shader-constant block as uploaded by the game. -/
def RawBlock : Type := Fin 16 → FloatVal

/-- The reals carried by a raw block. -/
def toReals (b : RawBlock) : Fin 16 → ℝ := fun i => (b i).toReal

/-- A 4x4 matrix (`D3DMATRIX`): entry `(r, c)` is the C field `_{r+1}{c+1}`. -/
def M4 : Type := Fin 4 → Fin 4 → ℝ

/-- A raw 16-float block read as a row-major `D3DMATRIX` (as
`TransposeMatrix4x4` and `MultiplyMatrix4x4` read their `float*` input). -/
def blockToM4 (f : Fin 16 → ℝ) : M4 := fun r c => f ⟨4 * r.val + c.val, by omega⟩

/-- `MultiplyMatrix4x4`: row-major product `out = A * B`. -/
def MultiplyMatrix4x4 (A B : M4) : M4 := fun r c => ∑ k : Fin 4, A r k * B k c

/-- `TransposeMatrix4x4`. -/
def TransposeMatrix4x4 (A : M4) : M4 := fun r c => A c r

/-- `CreateIdentityMatrix`. -/
def CreateIdentityMatrix : M4 := fun r c => if r = c then 1 else 0

/-- `MultiplyD3D` is `MultiplyMatrix4x4` on the underlying floats. -/
def MultiplyD3D (A B : M4) : M4 := MultiplyMatrix4x4 A B

/-- `InvertView`: closed-form inverse of a rigid-body view matrix
`V = [R 0; t 1]` (row-vector convention), as written entry-by-entry in the
source: the 3x3 block is transposed, the translation row becomes `-t * Rᵀ`,
and the remaining entries are the `memset` zeros and the final 1. -/
def InvertView (V : M4) : M4 := fun r c =>
  if r.val ≤ 2 ∧ c.val ≤ 2 then V c r
  else if r.val = 3 ∧ c.val ≤ 2 then
    -(V 3 0 * V c 0 + V 3 1 * V c 1 + V 3 2 * V c 2)
  else if r.val = 3 ∧ c.val = 3 then 1
  else 0

/-- `InvertProj`: closed-form inverse of a D3D left-handed perspective
projection; returns the identity when any of the three load-bearing
coefficients `xS = P._11`, `yS = P._22`, `B = P._43` has magnitude
below `0.0001`. -/
noncomputable def InvertProj (P : M4) : M4 :=
  let xS := P 0 0
  let yS := P 1 1
  let A := P 2 2
  let B := P 3 2
  if |xS| < 0.0001 ∨ |yS| < 0.0001 ∨ |B| < 0.0001 then CreateIdentityMatrix
  else fun r c =>
    if r.val = 0 ∧ c.val = 0 then 1 / xS
    else if r.val = 1 ∧ c.val = 1 then 1 / yS
    else if r.val = 2 ∧ c.val = 3 then 1 / B
    else if r.val = 3 ∧ c.val = 2 then 1
    else if r.val = 3 ∧ c.val = 3 then -A / B
    else 0

/-- Perspective-row magnitude `sqrt(f[3]^2 + f[7]^2 + f[11]^2)` of a block
(the camera-forward direction length for a column-major VP). -/
noncomputable def prMagOf (f : Fin 16 → ℝ) : ℝ :=
  Real.sqrt (f 3 * f 3 + f 7 * f 7 + f 11 * f 11)

/-- Row-0 cross-register magnitude `sqrt(f[0]^2 + f[4]^2 + f[8]^2)`
(the x projection scale). -/
noncomputable def xScaleOf (f : Fin 16 → ℝ) : ℝ :=
  Real.sqrt (f 0 * f 0 + f 4 * f 4 + f 8 * f 8)

/-- Row-1 cross-register magnitude `sqrt(f[1]^2 + f[5]^2 + f[9]^2)`
(the y projection scale). -/
noncomputable def yScaleOf (f : Fin 16 → ℝ) : ℝ :=
  Real.sqrt (f 1 * f 1 + f 5 * f 5 + f 9 * f 9)

/-- The body of `ScoreAsVP` after the `isfinite` loop, on the (finite) real
values of the block: hard gates on the perspective-row magnitude and on both
cross-register scales, with the two soft bonuses. -/
noncomputable def ScoreAsVPFinite (f : Fin 16 → ℝ) : ℤ :=
  let prMag := prMagOf f
  if 0.8 ≤ prMag ∧ prMag ≤ 1.2 then
    let bonus1 : ℤ := if |prMag - 1| < 0.05 then 3 else 0
    let xS := xScaleOf f
    if 0.3 ≤ xS ∧ xS ≤ 5 then
      let yS := yScaleOf f
      if 0.3 ≤ yS ∧ yS ≤ 5 then
        5 + bonus1 + 2 + 2 + (if 10 < |f 15| then 2 else 0)
      else 0
    else 0
  else 0

/-- `ScoreAsVP`: returns 0 as soon as any of the 16 values is non-finite,
otherwise scores the finite values. -/
noncomputable def ScoreAsVP (b : RawBlock) : ℤ :=
  if ∀ i : Fin 16, (b i).isfinite = true then ScoreAsVPFinite (toReals b) else 0

/-- `ProxyConfig` (the fields the engine reads; `enableLogging`,
`diagnosticFrames` and `aspect` only affect logging and are omitted). -/
structure ProxyConfig where
  zNear : ℝ
  zFar : ℝ

/-- The built-in default configuration (`zNear = 10`, `zFar = 100000`). -/
def defaultConfig : ProxyConfig := ⟨10, 100000⟩

/-- The sparse projection-matrix shape written by `DecomposeVP_ColMajor` for
both `projOut` and `gameProjOut`: `_11 = xS`, `_22 = yS`, `_33 = A`,
`_34 = 1`, `_43 = B`, all other entries 0. -/
def synthProj (xS yS A B : ℝ) : M4 :=
  ![![xS, 0, 0, 0], ![0, yS, 0, 0], ![0, 0, A, 1], ![0, 0, B, 0]]

/-- `DecomposeVP_ColMajor`: factor a column-major UE3 VP block into a
row-vector View plus a synthetic Projection (caller-configured depth range)
and the game's actual projection.  Returns `none` exactly on the source's
`return false` paths (degenerate scales or forward direction). -/
noncomputable def DecomposeVP_ColMajor (cfg : ProxyConfig) (vp : Fin 16 → ℝ) :
    Option (M4 × M4 × M4) :=
  let xS := xScaleOf vp
  let yS := yScaleOf vp
  if xS < 0.001 ∨ yS < 0.001 then none
  else
    let rx := vp 0 / xS; let ry := vp 4 / xS; let rz := vp 8 / xS
    let ux := vp 1 / yS; let uy := vp 5 / yS; let uz := vp 9 / yS
    let fwdMag := prMagOf vp
    if fwdMag < 0.001 then none
    else
      let fx := vp 3 / fwdMag; let fy := vp 7 / fwdMag; let fz := vp 11 / fwdMag
      let rDotEye := -vp 12 / xS
      let uDotEye := -vp 13 / yS
      let fDotEye := -vp 15
      let eyeX := rDotEye * rx + uDotEye * ux + fDotEye * fx
      let eyeY := rDotEye * ry + uDotEye * uy + fDotEye * fy
      let eyeZ := rDotEye * rz + uDotEye * uz + fDotEye * fz
      let tx := -(rx * eyeX + ry * eyeY + rz * eyeZ)
      let ty := -(ux * eyeX + uy * eyeY + uz * eyeZ)
      let tz := -(fx * eyeX + fy * eyeY + fz * eyeZ)
      let view : M4 :=
        ![![rx, ux, fx, 0], ![ry, uy, fy, 0], ![rz, uz, fz, 0], ![tx, ty, tz, 1]]
      let zN := cfg.zNear
      let zF := cfg.zFar
      let proj := synthProj xS yS (zF / (zF - zN)) (-zN * zF / (zF - zN))
      let r2Mag := Real.sqrt (vp 2 * vp 2 + vp 6 * vp 6 + vp 10 * vp 10)
      let gameProj := synthProj xS yS r2Mag (vp 14 - r2Mag * vp 15)
      some (view, proj, gameProj)

/-- `DetectState`: the two phases of the lock state machine. -/
inductive DetectState where
  | SCANNING : DetectState
  | LOCKED : DetectState
deriving DecidableEq

/-- A `SetTransform` call pushed to the wrapped device (the transform sink). -/
inductive TransformCall where
  | view : M4 → TransformCall
  | proj : M4 → TransformCall
  | world : M4 → TransformCall

/-- The mutable detection state of a `WrappedD3D9Device` (the fields that
feed detection, decomposition and the transforms pushed to the sink; the
diagnostic-logging counters `m_diagStartFrame`, `m_diagLogsThisFrame` and
`m_worldLogCount` only gate `LogMsg` calls and are omitted, as is the
constant `m_vpRegister = 0` identifying the watched register window). -/
structure DevState where
  detectState : DetectState
  consecutiveFrames : ℤ
  prevVP44 : ℝ
  frameBestVP : RawBlock
  frameBestScore : ℤ
  hasFrameCandidate : Bool
  lastView : M4
  lastProj : M4
  lastGameProj : M4
  pendingView : M4
  pendingProj : M4
  pendingGameProj : M4
  vpInverse : M4
  hasCamera : Bool
  pendingUpdate : Bool
  hasVPInverse : Bool

/-- The freshly constructed device state (`memset`-zeroed matrices and block,
`SCANNING`, all flags false, counters zero). -/
def initState : DevState where
  detectState := .SCANNING
  consecutiveFrames := 0
  prevVP44 := 0
  frameBestVP := fun _ => .finite 0
  frameBestScore := 0
  hasFrameCandidate := false
  lastView := fun _ _ => 0
  lastProj := fun _ _ => 0
  lastGameProj := fun _ _ => 0
  pendingView := fun _ _ => 0
  pendingProj := fun _ _ => 0
  pendingGameProj := fun _ _ => 0
  vpInverse := fun _ _ => 0
  hasCamera := false
  pendingUpdate := false
  hasVPInverse := false

/-- `WrappedD3D9Device::SetVertexShaderConstantF`, for an upload that covers
the watched register window `c0..c3`, given the extracted 16-float block:
score the block, track the per-frame best candidate, and in `LOCKED` state
decompose qualifying blocks into the pending camera, push the first camera
immediately, and push a per-draw World transform.  Returns the updated state
and the `SetTransform` calls made, in program order. -/
noncomputable def SetVertexShaderConstantF (cfg : ProxyConfig) (s : DevState)
    (block : RawBlock) : DevState × List TransformCall :=
  let score := ScoreAsVP block
  let s1 :=
    if score > s.frameBestScore then
      { s with frameBestScore := score, frameBestVP := block,
               hasFrameCandidate := true }
    else s
  if s1.detectState = .LOCKED then
    let s2out :=
      if score ≥ 6 then
        match DecomposeVP_ColMajor cfg (toReals block) with
        | some (view, proj, gameProj) =>
          let s' := { s1 with pendingView := view, pendingProj := proj,
                              pendingGameProj := gameProj, pendingUpdate := true }
          if ¬ s'.hasCamera then
            ({ s' with lastView := view, lastProj := proj,
                       lastGameProj := gameProj, hasCamera := true,
                       vpInverse := MultiplyD3D (InvertProj gameProj) (InvertView view),
                       hasVPInverse := true },
             [TransformCall.view view, TransformCall.proj proj])
          else (s', [])
        | none => (s1, [])
      else (s1, [])
    let s2 := s2out.1
    let worldCalls :=
      if s2.hasVPInverse ∧ 1 < |(block 14).toReal| then
        [TransformCall.world
          (MultiplyMatrix4x4 (TransposeMatrix4x4 (blockToM4 (toReals block)))
            s2.vpInverse)]
      else if s2.hasVPInverse then [TransformCall.world CreateIdentityMatrix]
      else []
    (s2, s2out.2 ++ worldCalls)
  else (s1, [])

/-- `WrappedD3D9Device::Present`: run the scanning→locked transition on the
frame's best candidate, commit a pending camera update once per frame, and
reset the per-frame bookkeeping. -/
noncomputable def Present (cfg : ProxyConfig) (s : DevState) :
    DevState × List TransformCall :=
  let s1out :=
    if s.detectState = .SCANNING ∧ s.hasFrameCandidate then
      let d44 := |(s.frameBestVP 15).toReal - s.prevVP44|
      let consec := if d44 > 0.01 then s.consecutiveFrames + 1 else s.consecutiveFrames
      let sA := { s with consecutiveFrames := consec,
                         prevVP44 := (s.frameBestVP 15).toReal }
      if consec ≥ 3 then
        let sB := { sA with detectState := .LOCKED }
        match DecomposeVP_ColMajor cfg (toReals s.frameBestVP) with
        | some (view, proj, gameProj) =>
          ({ sB with lastView := view, lastProj := proj, lastGameProj := gameProj,
                     hasCamera := true,
                     vpInverse := MultiplyD3D (InvertProj gameProj) (InvertView view),
                     hasVPInverse := true },
           [TransformCall.view view, TransformCall.proj proj])
        | none => (sB, [])
      else (sA, [])
    else (s, [])
  let s1 := s1out.1
  let s2out :=
    if s1.pendingUpdate ∧ s1.hasCamera then
      ({ s1 with lastView := s1.pendingView, lastProj := s1.pendingProj,
                 lastGameProj := s1.pendingGameProj,
                 vpInverse := MultiplyD3D (InvertProj s1.pendingGameProj)
                   (InvertView s1.pendingView),
                 hasVPInverse := true, pendingUpdate := false },
       [TransformCall.view s1.pendingView, TransformCall.proj s1.pendingProj])
    else (s1, [])
  let s2 := s2out.1
  ({ s2 with hasFrameCandidate := false, frameBestScore := 0 },
   s1out.2 ++ s2out.2)

/-- `WrappedD3D9Device::BeginScene`: once a camera exists, push identity
World plus the committed View and Projection. -/
def BeginScene (s : DevState) : DevState × List TransformCall :=
  if s.hasCamera then
    (s, [TransformCall.world CreateIdentityMatrix,
         TransformCall.view s.lastView, TransformCall.proj s.lastProj])
  else (s, [])

/-- An intercepted device event relevant to the engine. -/
inductive DevEvent where
  | constantUpload : RawBlock → DevEvent
  | present : DevEvent
  | beginScene : DevEvent

/-- Dispatch one event. -/
noncomputable def step (cfg : ProxyConfig) (s : DevState) :
    DevEvent → DevState × List TransformCall
  | .constantUpload b => SetVertexShaderConstantF cfg s b
  | .present => Present cfg s
  | .beginScene => BeginScene s

/-- Run a sequence of events, accumulating the transform calls pushed to the
sink in order. -/
noncomputable def run (cfg : ProxyConfig) (s : DevState) :
    List DevEvent → DevState × List TransformCall
  | [] => (s, [])
  | e :: es =>
    let r := step cfg s e
    let r' := run cfg r.1 es
    (r'.1, r.2 ++ r'.2)

/-- The event sequence of a list of frames, one candidate upload per frame
followed by the frame boundary. -/
def frameEvents : List RawBlock → List DevEvent
  | [] => []
  | b :: bs => .constantUpload b :: .present :: frameEvents bs

/-- What a single upload contributes to the pending camera in `LOCKED`
state: its decomposition if it scores at least 6 and decomposes, else
nothing. -/
noncomputable def qualDecomp (cfg : ProxyConfig) (b : RawBlock) :
    Option (M4 × M4 × M4) :=
  if 6 ≤ ScoreAsVP b then DecomposeVP_ColMajor cfg (toReals b) else none

/-- The decomposition of the last candidate of a frame that scores at least
6 and decomposes successfully — the one the code actually commits. -/
noncomputable def lastQual (cfg : ProxyConfig) (bs : List RawBlock) :
    Option (M4 × M4 × M4) :=
  bs.foldl (fun acc b => match qualDecomp cfg b with
    | some d => some d
    | none => acc) none

/-! ## Rigid transforms and orthonormal bases -/

/-- The inclusion `Fin 3 → Fin 4` used to carve the rotation block out of a
4x4 view matrix. -/
def fin3to4 (i : Fin 3) : Fin 4 := ⟨i.val, by omega⟩

@[simp] theorem fin3to4_zero : fin3to4 0 = 0 := rfl

@[simp] theorem fin3to4_one : fin3to4 1 = 1 := rfl

@[simp] theorem fin3to4_two : fin3to4 2 = 2 := rfl

@[simp] theorem fin4_val_zero : ((0 : Fin 4)).val = 0 := rfl

@[simp] theorem fin4_val_one : ((1 : Fin 4)).val = 1 := rfl

@[simp] theorem fin4_val_two : ((2 : Fin 4)).val = 2 := rfl

@[simp] theorem fin4_val_three : ((3 : Fin 4)).val = 3 := rfl

/-- The upper-left 3x3 block of a 4x4 matrix. -/
def rot3 (V : M4) : Matrix (Fin 3) (Fin 3) ℝ :=
  Matrix.of fun i j => V (fin3to4 i) (fin3to4 j)

/-- A rigid transform in the row-vector convention: the 3x3 block has
unit-length, mutually orthogonal rows, the fourth column is `(0,0,0,1)`,
and the fourth row carries the translation. -/
def IsRigid (V : M4) : Prop :=
  rot3 V * Matrix.transpose (rot3 V) = 1 ∧
  V 0 3 = 0 ∧ V 1 3 = 0 ∧ V 2 3 = 0 ∧ V 3 3 = 1

/-- Dot product on 3-vectors. -/
def dot3 (a b : Fin 3 → ℝ) : ℝ := a 0 * b 0 + a 1 * b 1 + a 2 * b 2

/-- The 3x3 matrix whose rows are `r`, `u`, `f`. -/
def basisM (r u f : Fin 3 → ℝ) : Matrix (Fin 3) (Fin 3) ℝ :=
  Matrix.of fun a b => if a = 0 then r b else if a = 1 then u b else f b

/-- An ideal column-major VP block synthesized from a camera basis
`right`/`up`/`forward`, an eye position and projection coefficients, laid
out exactly as the source's column-major convention comments describe:
row 0 is `xS * right`, row 1 is `yS * up`, row 2 is `A * forward`, row 3 is
`forward`; the fourth column carries the projected eye dot products. -/
def idealVP (r u f e : Fin 3 → ℝ) (xS yS A B : ℝ) : Fin 16 → ℝ :=
![xS * r 0, yS * u 0, A * f 0, f 0,
  xS * r 1, yS * u 1, A * f 1, f 1,
  xS * r 2, yS * u 2, A * f 2, f 2,
  -(xS * dot3 r e), -(yS * dot3 u e), A * -(dot3 f e) + B, -(dot3 f e)]

/-- The view matrix `DecomposeVP_ColMajor` recovers from an ideal block:
basis directions in the columns, negated projected eye in the fourth row. -/
def idealView (r u f e : Fin 3 → ℝ) : M4 :=
  ![![r 0, u 0, f 0, 0], ![r 1, u 1, f 1, 0], ![r 2, u 2, f 2, 0],
    ![-(dot3 r e), -(dot3 u e), -(dot3 f e), 1]]

/-! ## Concrete camera blocks used as witnesses and counterexamples

`camBlock z` is the ideal axis-aligned camera block (right `(1,0,0)`, up
`(0,1,0)`, forward `(0,0,1)`, unit projection scales) with the eye at
`(0, 0, z)`, so its distinguishing scalar `f[15]` is `-z`. -/

noncomputable def camBlock (z : ℝ) : Fin 16 → ℝ :=
![1, 0, 0, 0,
  0, 1, 0, 0,
  0, 0, 0, 1,
  0, 0, 0, -z]

/-- `camBlock` as a raw (finite) upload. -/
noncomputable def camBlockF (z : ℝ) : RawBlock := fun i => .finite (camBlock z i)

/-- The view matrix decomposed from `camBlock z`. -/
noncomputable def camView (z : ℝ) : M4 :=
  ![![1, 0, 0, 0], ![0, 1, 0, 0], ![0, 0, 1, 0], ![0, 0, -z, 1]]

/-- The synthetic projection decomposed from `camBlock z`. -/
noncomputable def camProj (cfg : ProxyConfig) : M4 :=
  synthProj 1 1 (cfg.zFar / (cfg.zFar - cfg.zNear))
    (-cfg.zNear * cfg.zFar / (cfg.zFar - cfg.zNear))

/-- The game projection decomposed from `camBlock z` (its row 2 is zero). -/
noncomputable def camGameProj : M4 := synthProj 1 1 0 0

/-- A block on which decomposition succeeds although its `right` and `up`
rows are equal (both `(1,0,0)`), so the recovered view is not rigid. -/
noncomputable def skewBlock : Fin 16 → ℝ :=
![1, 1, 0, 0,
  0, 0, 0, 0,
  0, 0, 0, 1,
  0, 0, 0, 0]

/-- The (non-rigid) view matrix decomposed from `skewBlock`. -/
noncomputable def skewView : M4 :=
  ![![1, 1, 0, 0], ![0, 0, 0, 0], ![0, 0, 1, 0], ![0, 0, 0, 1]]

/-- A `LOCKED` device state with an established camera and a pending camera
update, as reached right after a qualifying locked-mode upload; used to
exercise the locked-mode upload and commit paths. -/
def lockedInit : DevState :=
  { initState with detectState := .LOCKED, hasCamera := true,
                   pendingUpdate := true }

theorem basisM_mul_transpose (r u f : Fin 3 → ℝ)
    (hrr : dot3 r r = 1) (huu : dot3 u u = 1) (hff : dot3 f f = 1)
    (hru : dot3 r u = 0) (hrf : dot3 r f = 0) (huf : dot3 u f = 0) :
    basisM r u f * Matrix.transpose (basisM r u f) = 1 := by
  unfold dot3 at *
  ext i j
  fin_cases i <;> fin_cases j <;>
    simp [basisM, Matrix.mul_apply, Matrix.transpose_apply, Fin.sum_univ_three,
      Matrix.one_apply] <;>
    first
      | linear_combination hrr
      | linear_combination huu
      | linear_combination hff
      | linear_combination hru
      | linear_combination hrf
      | linear_combination huf

/-- Completeness of an orthonormal basis of `ℝ³`: expanding a vector in its
projections onto `r`, `u`, `f` reconstructs the vector. -/
theorem basis_complete (r u f : Fin 3 → ℝ)
    (hrr : dot3 r r = 1) (huu : dot3 u u = 1) (hff : dot3 f f = 1)
    (hru : dot3 r u = 0) (hrf : dot3 r f = 0) (huf : dot3 u f = 0)
    (e : Fin 3 → ℝ) (i : Fin 3) :
    dot3 r e * r i + dot3 u e * u i + dot3 f e * f i = e i := by
  have hM := basisM_mul_transpose r u f hrr huu hff hru hrf huf
  have hM' := Matrix.mul_eq_one_comm.mp hM
  have key : ∀ a b : Fin 3,
      r a * r b + u a * u b + f a * f b =
        (1 : Matrix (Fin 3) (Fin 3) ℝ) a b := by
    intro a b
    have h := congrFun (congrFun hM' a) b
    simpa [basisM, Matrix.mul_apply, Matrix.transpose_apply,
      Fin.sum_univ_three] using h
  have k00 : r 0 * r 0 + u 0 * u 0 + f 0 * f 0 = 1 := by
    simpa [Matrix.one_apply] using key 0 0
  have k11 : r 1 * r 1 + u 1 * u 1 + f 1 * f 1 = 1 := by
    simpa [Matrix.one_apply] using key 1 1
  have k22 : r 2 * r 2 + u 2 * u 2 + f 2 * f 2 = 1 := by
    simpa [Matrix.one_apply] using key 2 2
  have k01 : r 0 * r 1 + u 0 * u 1 + f 0 * f 1 = 0 := by
    simpa [Matrix.one_apply] using key 0 1
  have k02 : r 0 * r 2 + u 0 * u 2 + f 0 * f 2 = 0 := by
    simpa [Matrix.one_apply] using key 0 2
  have k12 : r 1 * r 2 + u 1 * u 2 + f 1 * f 2 = 0 := by
    simpa [Matrix.one_apply] using key 1 2
  fin_cases i
  · show dot3 r e * r 0 + dot3 u e * u 0 + dot3 f e * f 0 = e 0
    unfold dot3
    linear_combination e 0 * k00 + e 1 * k01 + e 2 * k02
  · show dot3 r e * r 1 + dot3 u e * u 1 + dot3 f e * f 1 = e 1
    unfold dot3
    linear_combination e 0 * k01 + e 1 * k11 + e 2 * k12
  · show dot3 r e * r 2 + dot3 u e * u 2 + dot3 f e * f 2 = e 2
    unfold dot3
    linear_combination e 0 * k02 + e 1 * k12 + e 2 * k22

/-! ## Evaluation lemmas for the concrete blocks -/

theorem prMag_cam (z : ℝ) : prMagOf (camBlock z) = 1 := by
  unfold prMagOf
  norm_num [show camBlock z 3 = (0:ℝ) from rfl, show camBlock z 7 = (0:ℝ) from rfl,
    show camBlock z 11 = (1:ℝ) from rfl, Real.sqrt_one]

theorem xScale_cam (z : ℝ) : xScaleOf (camBlock z) = 1 := by
  unfold xScaleOf
  norm_num [show camBlock z 0 = (1:ℝ) from rfl, show camBlock z 4 = (0:ℝ) from rfl,
    show camBlock z 8 = (0:ℝ) from rfl, Real.sqrt_one]

theorem yScale_cam (z : ℝ) : yScaleOf (camBlock z) = 1 := by
  unfold yScaleOf
  norm_num [show camBlock z 1 = (0:ℝ) from rfl, show camBlock z 5 = (1:ℝ) from rfl,
    show camBlock z 9 = (0:ℝ) from rfl, Real.sqrt_one]

theorem score_cam (z : ℝ) :
    ScoreAsVP (camBlockF z) = 12 + (if 10 < |z| then 2 else 0) := by
  unfold ScoreAsVP
  have hfin : ∀ i : Fin 16, (camBlockF z i).isfinite = true := fun i => rfl
  rw [if_pos hfin]
  have ht : toReals (camBlockF z) = camBlock z := rfl
  rw [ht]
  unfold ScoreAsVPFinite
  rw [prMag_cam, xScale_cam, yScale_cam]
  norm_num [show camBlock z 15 = -z from rfl, abs_neg]

theorem decompose_cam (cfg : ProxyConfig) (z : ℝ) :
    DecomposeVP_ColMajor cfg (camBlock z) = some (camView z, camProj cfg, camGameProj) := by
  unfold DecomposeVP_ColMajor
  rw [xScale_cam, yScale_cam, prMag_cam]
  norm_num [show camBlock z 2 = (0:ℝ) from rfl, show camBlock z 6 = (0:ℝ) from rfl,
    show camBlock z 10 = (0:ℝ) from rfl, Real.sqrt_zero]
  refine ⟨?_, ?_, ?_⟩
  · funext r c
    fin_cases r <;> fin_cases c <;>
      norm_num [camView, show camBlock z 0 = (1:ℝ) from rfl,
        show camBlock z 1 = (0:ℝ) from rfl, show camBlock z 3 = (0:ℝ) from rfl,
        show camBlock z 4 = (0:ℝ) from rfl, show camBlock z 5 = (1:ℝ) from rfl,
        show camBlock z 7 = (0:ℝ) from rfl, show camBlock z 8 = (0:ℝ) from rfl,
        show camBlock z 9 = (0:ℝ) from rfl, show camBlock z 11 = (1:ℝ) from rfl,
        show camBlock z 12 = (0:ℝ) from rfl, show camBlock z 13 = (0:ℝ) from rfl,
        show camBlock z 15 = -z from rfl]
  · norm_num [camProj]
  · norm_num [camGameProj, show camBlock z 14 = (0:ℝ) from rfl,
      show camBlock z 15 = -z from rfl]

theorem prMag_skew : prMagOf skewBlock = 1 := by
  unfold prMagOf
  norm_num [show skewBlock 3 = (0:ℝ) from rfl, show skewBlock 7 = (0:ℝ) from rfl,
    show skewBlock 11 = (1:ℝ) from rfl, Real.sqrt_one]

theorem xScale_skew : xScaleOf skewBlock = 1 := by
  unfold xScaleOf
  norm_num [show skewBlock 0 = (1:ℝ) from rfl, show skewBlock 4 = (0:ℝ) from rfl,
    show skewBlock 8 = (0:ℝ) from rfl, Real.sqrt_one]

theorem yScale_skew : yScaleOf skewBlock = 1 := by
  unfold yScaleOf
  norm_num [show skewBlock 1 = (1:ℝ) from rfl, show skewBlock 5 = (0:ℝ) from rfl,
    show skewBlock 9 = (0:ℝ) from rfl, Real.sqrt_one]

theorem decompose_skew (cfg : ProxyConfig) :
    DecomposeVP_ColMajor cfg skewBlock =
      some (skewView, camProj cfg, camGameProj) := by
  unfold DecomposeVP_ColMajor
  rw [xScale_skew, yScale_skew, prMag_skew]
  norm_num [show skewBlock 2 = (0:ℝ) from rfl, show skewBlock 6 = (0:ℝ) from rfl,
    show skewBlock 10 = (0:ℝ) from rfl, Real.sqrt_zero]
  refine ⟨?_, ?_, ?_⟩
  · funext r c
    fin_cases r <;> fin_cases c <;>
      norm_num [skewView, show skewBlock 0 = (1:ℝ) from rfl,
        show skewBlock 1 = (1:ℝ) from rfl, show skewBlock 3 = (0:ℝ) from rfl,
        show skewBlock 4 = (0:ℝ) from rfl, show skewBlock 5 = (0:ℝ) from rfl,
        show skewBlock 7 = (0:ℝ) from rfl, show skewBlock 8 = (0:ℝ) from rfl,
        show skewBlock 9 = (0:ℝ) from rfl, show skewBlock 11 = (1:ℝ) from rfl,
        show skewBlock 12 = (0:ℝ) from rfl, show skewBlock 13 = (0:ℝ) from rfl,
        show skewBlock 15 = (0:ℝ) from rfl]
  · norm_num [camProj]
  · norm_num [camGameProj, show skewBlock 14 = (0:ℝ) from rfl,
      show skewBlock 15 = (0:ℝ) from rfl]

/-! ## Claim theorems -/

/-- C9: for every valid rigid transform `V` (orthonormal 3x3 rotation block,
fourth column `(0,0,0,1)`, translation in the fourth row), applying the
rigid-view inverse twice reconstructs `V` exactly:
`InvertView (InvertView V) = V`. -/
theorem C9_invertRigid_involution (V : M4) (h : IsRigid V) :
    InvertView (InvertView V) = V := by
  obtain ⟨hR, h03, h13, h23, h33⟩ := h
  have hR' := Matrix.mul_eq_one_comm.mp hR
  have key : ∀ a b : Fin 3,
      V (fin3to4 0) (fin3to4 a) * V (fin3to4 0) (fin3to4 b) +
      V (fin3to4 1) (fin3to4 a) * V (fin3to4 1) (fin3to4 b) +
      V (fin3to4 2) (fin3to4 a) * V (fin3to4 2) (fin3to4 b) =
        (1 : Matrix (Fin 3) (Fin 3) ℝ) a b := by
    intro a b
    have hh := congrFun (congrFun hR' a) b
    simpa [rot3, Matrix.mul_apply, Matrix.transpose_apply,
      Fin.sum_univ_three] using hh
  have k00 : V 0 0 * V 0 0 + V 1 0 * V 1 0 + V 2 0 * V 2 0 = 1 := by
    simpa [Matrix.one_apply] using key 0 0
  have k11 : V 0 1 * V 0 1 + V 1 1 * V 1 1 + V 2 1 * V 2 1 = 1 := by
    simpa [Matrix.one_apply] using key 1 1
  have k22 : V 0 2 * V 0 2 + V 1 2 * V 1 2 + V 2 2 * V 2 2 = 1 := by
    simpa [Matrix.one_apply] using key 2 2
  have k01 : V 0 0 * V 0 1 + V 1 0 * V 1 1 + V 2 0 * V 2 1 = 0 := by
    simpa [Matrix.one_apply] using key 0 1
  have k02 : V 0 0 * V 0 2 + V 1 0 * V 1 2 + V 2 0 * V 2 2 = 0 := by
    simpa [Matrix.one_apply] using key 0 2
  have k12 : V 0 1 * V 0 2 + V 1 1 * V 1 2 + V 2 1 * V 2 2 = 0 := by
    simpa [Matrix.one_apply] using key 1 2
  have q00 : InvertView (InvertView V) 0 0 = V 0 0 := by norm_num [InvertView]
  have q01 : InvertView (InvertView V) 0 1 = V 0 1 := by norm_num [InvertView]
  have q02 : InvertView (InvertView V) 0 2 = V 0 2 := by norm_num [InvertView]
  have q03 : InvertView (InvertView V) 0 3 = V 0 3 := by norm_num [InvertView, h03]
  have q10 : InvertView (InvertView V) 1 0 = V 1 0 := by norm_num [InvertView]
  have q11 : InvertView (InvertView V) 1 1 = V 1 1 := by norm_num [InvertView]
  have q12 : InvertView (InvertView V) 1 2 = V 1 2 := by norm_num [InvertView]
  have q13 : InvertView (InvertView V) 1 3 = V 1 3 := by norm_num [InvertView, h13]
  have q20 : InvertView (InvertView V) 2 0 = V 2 0 := by norm_num [InvertView]
  have q21 : InvertView (InvertView V) 2 1 = V 2 1 := by norm_num [InvertView]
  have q22 : InvertView (InvertView V) 2 2 = V 2 2 := by norm_num [InvertView]
  have q23 : InvertView (InvertView V) 2 3 = V 2 3 := by norm_num [InvertView, h23]
  have q30 : InvertView (InvertView V) 3 0 = V 3 0 := by
    norm_num [InvertView]
    linear_combination V 3 0 * k00 + V 3 1 * k01 + V 3 2 * k02
  have q31 : InvertView (InvertView V) 3 1 = V 3 1 := by
    norm_num [InvertView]
    linear_combination V 3 0 * k01 + V 3 1 * k11 + V 3 2 * k12
  have q32 : InvertView (InvertView V) 3 2 = V 3 2 := by
    norm_num [InvertView]
    linear_combination V 3 0 * k02 + V 3 1 * k12 + V 3 2 * k22
  have q33 : InvertView (InvertView V) 3 3 = V 3 3 := by norm_num [InvertView, h33]
  funext r c
  fin_cases r <;> fin_cases c
  exacts [q00, q01, q02, q03, q10, q11, q12, q13,
          q20, q21, q22, q23, q30, q31, q32, q33]

/-- Witness for C9: the identity matrix is rigid and `InvertView` applied
twice to it gives it back. -/
theorem C9_invertRigid_involution_witness :
    IsRigid CreateIdentityMatrix ∧
    InvertView (InvertView CreateIdentityMatrix) = CreateIdentityMatrix := by
  have hrig : IsRigid CreateIdentityMatrix := by
    refine ⟨?_, by norm_num [CreateIdentityMatrix, Fin.ext_iff],
      by norm_num [CreateIdentityMatrix, Fin.ext_iff],
      by norm_num [CreateIdentityMatrix, Fin.ext_iff],
      by norm_num [CreateIdentityMatrix]⟩
    ext i j
    fin_cases i <;> fin_cases j <;>
      simp [rot3, CreateIdentityMatrix, Matrix.mul_apply, Matrix.transpose_apply,
        Fin.sum_univ_three, Matrix.one_apply, fin3to4, Fin.ext_iff]
  exact ⟨hrig, C9_invertRigid_involution CreateIdentityMatrix hrig⟩

/-- C8: for every synthetic projection `P = synthProj xS yS A B` built by the
decomposer's own constructor whose load-bearing coefficients `xS`, `yS`, `B`
all have magnitude at least `1e-4`, the product `P * InvertProj P` is the
identity; and when any of the three has magnitude below `1e-4`, `InvertProj`
returns the identity instead. -/
theorem C8_invertProj_inverse (xS yS A B : ℝ) :
    (¬ (|xS| < 0.0001 ∨ |yS| < 0.0001 ∨ |B| < 0.0001) →
      MultiplyMatrix4x4 (synthProj xS yS A B) (InvertProj (synthProj xS yS A B)) =
        CreateIdentityMatrix) ∧
    ((|xS| < 0.0001 ∨ |yS| < 0.0001 ∨ |B| < 0.0001) →
      InvertProj (synthProj xS yS A B) = CreateIdentityMatrix) := by
  constructor
  · intro h
    have hx : xS ≠ 0 := by
      intro h0
      exact h (Or.inl (by rw [h0]; norm_num))
    have hy : yS ≠ 0 := by
      intro h0
      exact h (Or.inr (Or.inl (by rw [h0]; norm_num)))
    have hb : B ≠ 0 := by
      intro h0
      exact h (Or.inr (Or.inr (by rw [h0]; norm_num)))
    have hQ : InvertProj (synthProj xS yS A B) =
        ![![1/xS, 0, 0, 0], ![0, 1/yS, 0, 0], ![0, 0, 0, 1/B], ![0, 0, 1, -A/B]] := by
      show (if |xS| < 0.0001 ∨ |yS| < 0.0001 ∨ |B| < 0.0001 then CreateIdentityMatrix
        else fun r c =>
          if r.val = 0 ∧ c.val = 0 then 1 / xS
          else if r.val = 1 ∧ c.val = 1 then 1 / yS
          else if r.val = 2 ∧ c.val = 3 then 1 / B
          else if r.val = 3 ∧ c.val = 2 then 1
          else if r.val = 3 ∧ c.val = 3 then -(synthProj xS yS A B 2 2) / B
          else 0) = _
      rw [if_neg h]
      funext r c
      fin_cases r <;> fin_cases c <;>
        simp [synthProj, Matrix.vecHead, Matrix.vecTail]
    rw [hQ]
    funext r c
    fin_cases r <;> fin_cases c <;>
      field_simp [MultiplyMatrix4x4, Fin.sum_univ_four, synthProj,
        CreateIdentityMatrix, Matrix.vecHead, Matrix.vecTail, Fin.ext_iff]
    all_goals norm_num [Fin.ext_iff]
  · intro h
    unfold InvertProj
    rw [if_pos]
    exact h

/-- Witness for C8: at `xS = yS = B = 1`, `A = 0` the product is the
identity, and at `xS = 0` the inverse degenerates to the identity. -/
theorem C8_invertProj_inverse_witness :
    MultiplyMatrix4x4 (synthProj 1 1 0 1) (InvertProj (synthProj 1 1 0 1)) =
      CreateIdentityMatrix ∧
    InvertProj (synthProj 0 1 0 1) = CreateIdentityMatrix :=
  ⟨(C8_invertProj_inverse 1 1 0 1).1 (by norm_num),
   (C8_invertProj_inverse 0 1 0 1).2 (by norm_num)⟩

/-- C6: the scorer returns 0 whenever any of the 16 values is non-finite;
on all-finite blocks it returns 0 whenever the perspective-row magnitude
leaves `[0.8, 1.2]` or either cross-register scale leaves `[0.3, 5]` (hard
gates), and is strictly positive whenever all three gates pass. -/
theorem C6_score_gates (b : RawBlock) :
    ((∃ i : Fin 16, (b i).isfinite = false) → ScoreAsVP b = 0) ∧
    ((∀ i : Fin 16, (b i).isfinite = true) →
      ((¬ (0.8 ≤ prMagOf (toReals b) ∧ prMagOf (toReals b) ≤ 1.2) →
          ScoreAsVP b = 0) ∧
       (¬ (0.3 ≤ xScaleOf (toReals b) ∧ xScaleOf (toReals b) ≤ 5) →
          ScoreAsVP b = 0) ∧
       (¬ (0.3 ≤ yScaleOf (toReals b) ∧ yScaleOf (toReals b) ≤ 5) →
          ScoreAsVP b = 0) ∧
       ((0.8 ≤ prMagOf (toReals b) ∧ prMagOf (toReals b) ≤ 1.2) →
        (0.3 ≤ xScaleOf (toReals b) ∧ xScaleOf (toReals b) ≤ 5) →
        (0.3 ≤ yScaleOf (toReals b) ∧ yScaleOf (toReals b) ≤ 5) →
        0 < ScoreAsVP b))) := by
  constructor
  · rintro ⟨i, hi⟩
    unfold ScoreAsVP
    rw [if_neg]
    intro hall
    rw [hall i] at hi
    cases hi
  · intro hall
    unfold ScoreAsVP
    rw [if_pos hall]
    unfold ScoreAsVPFinite
    refine ⟨fun h => by rw [if_neg h], fun h => ?_, fun h => ?_, fun h1 h2 h3 => ?_⟩
    · split_ifs <;> simp_all
    · split_ifs <;> simp_all
    · rw [if_pos h1, if_pos h2, if_pos h3]
      split_ifs <;> norm_num

/-- Witness for C6: a block containing NaN scores 0, and the ideal
axis-aligned camera block passes all gates, hence scores positively. -/
theorem C6_score_gates_witness :
    ScoreAsVP (fun _ => FloatVal.nan) = 0 ∧ 0 < ScoreAsVP (camBlockF 100) := by
  constructor
  · exact (C6_score_gates (fun _ => FloatVal.nan)).1 ⟨0, rfl⟩
  · refine ((C6_score_gates (camBlockF 100)).2 (fun i => rfl)).2.2.2 ?_ ?_ ?_
    · rw [show toReals (camBlockF 100) = camBlock 100 from rfl, prMag_cam]
      norm_num
    · rw [show toReals (camBlockF 100) = camBlock 100 from rfl, xScale_cam]
      norm_num
    · rw [show toReals (camBlockF 100) = camBlock 100 from rfl, yScale_cam]
      norm_num

/-- Case analysis on the scorer: its value is one of `0, 9, 11, 12, 14`. -/
theorem score_mem (b : RawBlock) :
    ScoreAsVP b = 0 ∨ ScoreAsVP b = 9 ∨ ScoreAsVP b = 11 ∨
      ScoreAsVP b = 12 ∨ ScoreAsVP b = 14 := by
  unfold ScoreAsVP
  by_cases hf : ∀ i : Fin 16, (b i).isfinite = true
  · rw [if_pos hf]
    simp only [ScoreAsVPFinite]
    by_cases h1 : (0.8:ℝ) ≤ prMagOf (toReals b) ∧ prMagOf (toReals b) ≤ 1.2
    · rw [if_pos h1]
      by_cases h2 : (0.3:ℝ) ≤ xScaleOf (toReals b) ∧ xScaleOf (toReals b) ≤ 5
      · rw [if_pos h2]
        by_cases h3 : (0.3:ℝ) ≤ yScaleOf (toReals b) ∧ yScaleOf (toReals b) ≤ 5
        · rw [if_pos h3]
          split_ifs <;> norm_num
        · rw [if_neg h3]
          norm_num
      · rw [if_neg h2]
        norm_num
    · rw [if_neg h1]
      norm_num
  · rw [if_neg hf]
    left
    rfl

/-- C10: the scorer's value always lies in `{0, 9, 11, 12, 14}`; every
non-rejected block scores strictly more than the locked-mode decomposition
threshold 6; and on a block passing all hard gates the score is exactly
`9` plus the `+3` near-unit perspective-row bonus plus the `+2` camera
distance bonus. -/
theorem C10_score_values (b : RawBlock) :
    (ScoreAsVP b = 0 ∨ ScoreAsVP b = 9 ∨ ScoreAsVP b = 11 ∨
      ScoreAsVP b = 12 ∨ ScoreAsVP b = 14) ∧
    (ScoreAsVP b ≠ 0 → 6 < ScoreAsVP b) ∧
    ((∀ i : Fin 16, (b i).isfinite = true) →
      (0.8 ≤ prMagOf (toReals b) ∧ prMagOf (toReals b) ≤ 1.2) →
      (0.3 ≤ xScaleOf (toReals b) ∧ xScaleOf (toReals b) ≤ 5) →
      (0.3 ≤ yScaleOf (toReals b) ∧ yScaleOf (toReals b) ≤ 5) →
      ScoreAsVP b = 9 + (if |prMagOf (toReals b) - 1| < 0.05 then 3 else 0)
                      + (if 10 < |toReals b 15| then 2 else 0)) := by
  refine ⟨score_mem b, ?_, ?_⟩
  · intro hne
    rcases score_mem b with h | h | h | h | h
    · exact absurd h hne
    · rw [h]; norm_num
    · rw [h]; norm_num
    · rw [h]; norm_num
    · rw [h]; norm_num
  · intro hall h1 h2 h3
    unfold ScoreAsVP ScoreAsVPFinite
    rw [if_pos hall, if_pos h1, if_pos h2, if_pos h3]
    split_ifs <;> norm_num

/-- Witness for C10: the ideal camera block with the eye 100 units out
scores 14, which is one of the allowed values and exceeds 6. -/
theorem C10_score_values_witness :
    ScoreAsVP (camBlockF 100) ≠ 0 ∧ 6 < ScoreAsVP (camBlockF 100) := by
  have h14 : ScoreAsVP (camBlockF 100) = 14 := by
    rw [score_cam]
    norm_num
  have hne : ScoreAsVP (camBlockF 100) ≠ 0 := by rw [h14]; norm_num
  exact ⟨hne, (C10_score_values (camBlockF 100)).2.1 hne⟩

/-- C4: decomposition fails exactly when a cross-register scale or the
forward-direction magnitude is below `0.001`; and on failure no camera state
is mutated — neither in the locked per-upload path nor in the lock
transition at the frame boundary does a failing decomposition touch the
pending or committed View/Projection/GameProjection. -/
theorem C4_decompose_failure (cfg : ProxyConfig) :
    (∀ vp : Fin 16 → ℝ,
      DecomposeVP_ColMajor cfg vp = none ↔
        (xScaleOf vp < 0.001 ∨ yScaleOf vp < 0.001 ∨ prMagOf vp < 0.001)) ∧
    (∀ (s : DevState) (b : RawBlock),
      DecomposeVP_ColMajor cfg (toReals b) = none →
      ((SetVertexShaderConstantF cfg s b).1.lastView = s.lastView ∧
       (SetVertexShaderConstantF cfg s b).1.lastProj = s.lastProj ∧
       (SetVertexShaderConstantF cfg s b).1.lastGameProj = s.lastGameProj ∧
       (SetVertexShaderConstantF cfg s b).1.pendingView = s.pendingView ∧
       (SetVertexShaderConstantF cfg s b).1.pendingProj = s.pendingProj ∧
       (SetVertexShaderConstantF cfg s b).1.pendingGameProj = s.pendingGameProj ∧
       (SetVertexShaderConstantF cfg s b).1.pendingUpdate = s.pendingUpdate ∧
       (SetVertexShaderConstantF cfg s b).1.hasCamera = s.hasCamera)) ∧
    (∀ s : DevState, s.detectState = .SCANNING → s.pendingUpdate = false →
      DecomposeVP_ColMajor cfg (toReals s.frameBestVP) = none →
      ((Present cfg s).1.lastView = s.lastView ∧
       (Present cfg s).1.lastProj = s.lastProj ∧
       (Present cfg s).1.lastGameProj = s.lastGameProj ∧
       (Present cfg s).1.hasCamera = s.hasCamera)) := by
  refine ⟨?_, ?_, ?_⟩
  · intro vp
    simp only [DecomposeVP_ColMajor]
    split_ifs with h1 h2
    · simp
      tauto
    · simp
      tauto
    · simp
      push_neg at h1 h2
      exact ⟨h1.1, h1.2, h2⟩
  · intro s b hdec
    unfold SetVertexShaderConstantF
    simp only [hdec]
    split_ifs <;> simp
  · intro s hscan hpu hdec
    unfold Present
    simp only [hscan, hdec]
    split_ifs <;> simp_all

/-- Witness for C4: the all-zero block is degenerate (`sqrt 0 < 0.001`), its
decomposition is `none`, and feeding it to the upload handler in the initial
state leaves the committed and pending camera untouched. -/
theorem C4_decompose_failure_witness :
    DecomposeVP_ColMajor defaultConfig (toReals (fun _ => FloatVal.finite 0)) = none ∧
    (SetVertexShaderConstantF defaultConfig initState
      (fun _ => FloatVal.finite 0)).1.hasCamera = initState.hasCamera := by
  have hdeg : xScaleOf (toReals (fun _ : Fin 16 => FloatVal.finite 0)) < 0.001 := by
    unfold xScaleOf
    norm_num [toReals, FloatVal.toReal, Real.sqrt_zero]
  have hnone := ((C4_decompose_failure defaultConfig).1
    (toReals (fun _ => FloatVal.finite 0))).mpr (Or.inl hdeg)
  exact ⟨hnone,
    ((C4_decompose_failure defaultConfig).2.1 initState
      (fun _ => FloatVal.finite 0) hnone).2.2.2.2.2.2.2⟩

/-- C2 (amended): every View produced by a successful decomposition has
fourth column `(0,0,0,1)` (translation in the fourth row) and unit-length
basis columns; its 3x3 block is an orthonormal rotation (rows unit-length
and mutually orthogonal, i.e. the View is rigid) provided the block's three
direction rows — row 0, row 1 and the perspective row — are mutually
orthogonal, as they are for a genuine VP.  (Unconditional orthonormality
fails: see the counterexample.) -/
theorem C2_view_structure (cfg : ProxyConfig) (vp : Fin 16 → ℝ) (V P G : M4)
    (hdec : DecomposeVP_ColMajor cfg vp = some (V, P, G)) :
    (V 0 3 = 0 ∧ V 1 3 = 0 ∧ V 2 3 = 0 ∧ V 3 3 = 1) ∧
    (V 0 0 * V 0 0 + V 1 0 * V 1 0 + V 2 0 * V 2 0 = 1 ∧
     V 0 1 * V 0 1 + V 1 1 * V 1 1 + V 2 1 * V 2 1 = 1 ∧
     V 0 2 * V 0 2 + V 1 2 * V 1 2 + V 2 2 * V 2 2 = 1) ∧
    (vp 0 * vp 1 + vp 4 * vp 5 + vp 8 * vp 9 = 0 →
     vp 0 * vp 3 + vp 4 * vp 7 + vp 8 * vp 11 = 0 →
     vp 1 * vp 3 + vp 5 * vp 7 + vp 9 * vp 11 = 0 →
     IsRigid V) := by
  simp only [DecomposeVP_ColMajor] at hdec
  by_cases h1 : xScaleOf vp < 0.001 ∨ yScaleOf vp < 0.001
  · rw [if_pos h1] at hdec
    cases hdec
  by_cases h2 : prMagOf vp < 0.001
  · rw [if_neg h1, if_pos h2] at hdec
    cases hdec
  rw [if_neg h1, if_neg h2] at hdec
  · push_neg at h1 h2
    have hx0 : (0:ℝ) < xScaleOf vp := lt_of_lt_of_le (by norm_num) h1.1
    have hy0 : (0:ℝ) < yScaleOf vp := lt_of_lt_of_le (by norm_num) h1.2
    have hf0 : (0:ℝ) < prMagOf vp := lt_of_lt_of_le (by norm_num) h2
    have hxsq : xScaleOf vp * xScaleOf vp = vp 0 * vp 0 + vp 4 * vp 4 + vp 8 * vp 8 := by
      unfold xScaleOf
      exact Real.mul_self_sqrt
        (add_nonneg (add_nonneg (mul_self_nonneg _) (mul_self_nonneg _)) (mul_self_nonneg _))
    have hysq : yScaleOf vp * yScaleOf vp = vp 1 * vp 1 + vp 5 * vp 5 + vp 9 * vp 9 := by
      unfold yScaleOf
      exact Real.mul_self_sqrt
        (add_nonneg (add_nonneg (mul_self_nonneg _) (mul_self_nonneg _)) (mul_self_nonneg _))
    have hfsq : prMagOf vp * prMagOf vp = vp 3 * vp 3 + vp 7 * vp 7 + vp 11 * vp 11 := by
      unfold prMagOf
      exact Real.mul_self_sqrt
        (add_nonneg (add_nonneg (mul_self_nonneg _) (mul_self_nonneg _)) (mul_self_nonneg _))
    simp only [Option.some.injEq, Prod.mk.injEq] at hdec
    obtain ⟨hV, hP, hG⟩ := hdec
    have e00 : V 0 0 = vp 0 / xScaleOf vp := (congrFun (congrFun hV 0) 0).symm
    have e10 : V 1 0 = vp 4 / xScaleOf vp := (congrFun (congrFun hV 1) 0).symm
    have e20 : V 2 0 = vp 8 / xScaleOf vp := (congrFun (congrFun hV 2) 0).symm
    have e01 : V 0 1 = vp 1 / yScaleOf vp := (congrFun (congrFun hV 0) 1).symm
    have e11 : V 1 1 = vp 5 / yScaleOf vp := (congrFun (congrFun hV 1) 1).symm
    have e21 : V 2 1 = vp 9 / yScaleOf vp := (congrFun (congrFun hV 2) 1).symm
    have e02 : V 0 2 = vp 3 / prMagOf vp := (congrFun (congrFun hV 0) 2).symm
    have e12 : V 1 2 = vp 7 / prMagOf vp := (congrFun (congrFun hV 1) 2).symm
    have e22 : V 2 2 = vp 11 / prMagOf vp := (congrFun (congrFun hV 2) 2).symm
    have e03 : V 0 3 = 0 := (congrFun (congrFun hV 0) 3).symm
    have e13 : V 1 3 = 0 := (congrFun (congrFun hV 1) 3).symm
    have e23 : V 2 3 = 0 := (congrFun (congrFun hV 2) 3).symm
    have e33 : V 3 3 = 1 := (congrFun (congrFun hV 3) 3).symm
    have hx : xScaleOf vp ≠ 0 := ne_of_gt hx0
    have hy : yScaleOf vp ≠ 0 := ne_of_gt hy0
    have hf : prMagOf vp ≠ 0 := ne_of_gt hf0
    have hc0 : V 0 0 * V 0 0 + V 1 0 * V 1 0 + V 2 0 * V 2 0 = 1 := by
      rw [e00, e10, e20]
      have expand : vp 0 / xScaleOf vp * (vp 0 / xScaleOf vp) +
          vp 4 / xScaleOf vp * (vp 4 / xScaleOf vp) +
          vp 8 / xScaleOf vp * (vp 8 / xScaleOf vp) =
          (vp 0 * vp 0 + vp 4 * vp 4 + vp 8 * vp 8) /
            (xScaleOf vp * xScaleOf vp) := by ring
      rw [expand, ← hxsq, div_self (mul_ne_zero hx hx)]
    have hc1 : V 0 1 * V 0 1 + V 1 1 * V 1 1 + V 2 1 * V 2 1 = 1 := by
      rw [e01, e11, e21]
      have expand : vp 1 / yScaleOf vp * (vp 1 / yScaleOf vp) +
          vp 5 / yScaleOf vp * (vp 5 / yScaleOf vp) +
          vp 9 / yScaleOf vp * (vp 9 / yScaleOf vp) =
          (vp 1 * vp 1 + vp 5 * vp 5 + vp 9 * vp 9) /
            (yScaleOf vp * yScaleOf vp) := by ring
      rw [expand, ← hysq, div_self (mul_ne_zero hy hy)]
    have hc2 : V 0 2 * V 0 2 + V 1 2 * V 1 2 + V 2 2 * V 2 2 = 1 := by
      rw [e02, e12, e22]
      have expand : vp 3 / prMagOf vp * (vp 3 / prMagOf vp) +
          vp 7 / prMagOf vp * (vp 7 / prMagOf vp) +
          vp 11 / prMagOf vp * (vp 11 / prMagOf vp) =
          (vp 3 * vp 3 + vp 7 * vp 7 + vp 11 * vp 11) /
            (prMagOf vp * prMagOf vp) := by ring
      rw [expand, ← hfsq, div_self (mul_ne_zero hf hf)]
    refine ⟨⟨e03, e13, e23, e33⟩, ⟨hc0, hc1, hc2⟩, ?_⟩
    intro ho1 ho2 ho3
    have hc01 : V 0 0 * V 0 1 + V 1 0 * V 1 1 + V 2 0 * V 2 1 = 0 := by
      rw [e00, e10, e20, e01, e11, e21]
      have expand : vp 0 / xScaleOf vp * (vp 1 / yScaleOf vp) +
          vp 4 / xScaleOf vp * (vp 5 / yScaleOf vp) +
          vp 8 / xScaleOf vp * (vp 9 / yScaleOf vp) =
          (vp 0 * vp 1 + vp 4 * vp 5 + vp 8 * vp 9) /
            (xScaleOf vp * yScaleOf vp) := by ring
      rw [expand, ho1, zero_div]
    have hc02 : V 0 0 * V 0 2 + V 1 0 * V 1 2 + V 2 0 * V 2 2 = 0 := by
      rw [e00, e10, e20, e02, e12, e22]
      have expand : vp 0 / xScaleOf vp * (vp 3 / prMagOf vp) +
          vp 4 / xScaleOf vp * (vp 7 / prMagOf vp) +
          vp 8 / xScaleOf vp * (vp 11 / prMagOf vp) =
          (vp 0 * vp 3 + vp 4 * vp 7 + vp 8 * vp 11) /
            (xScaleOf vp * prMagOf vp) := by ring
      rw [expand, ho2, zero_div]
    have hc12 : V 0 1 * V 0 2 + V 1 1 * V 1 2 + V 2 1 * V 2 2 = 0 := by
      rw [e01, e11, e21, e02, e12, e22]
      have expand : vp 1 / yScaleOf vp * (vp 3 / prMagOf vp) +
          vp 5 / yScaleOf vp * (vp 7 / prMagOf vp) +
          vp 9 / yScaleOf vp * (vp 11 / prMagOf vp) =
          (vp 1 * vp 3 + vp 5 * vp 7 + vp 9 * vp 11) /
            (yScaleOf vp * prMagOf vp) := by ring
      rw [expand, ho3, zero_div]
    have hT : Matrix.transpose (rot3 V) * rot3 V = 1 := by
      ext a b
      fin_cases a <;> fin_cases b
      · show (Matrix.transpose (rot3 V) * rot3 V) 0 0 = (1:ℝ)
        simp only [Matrix.mul_apply, Matrix.transpose_apply, Fin.sum_univ_three,
          rot3, Matrix.of_apply, fin3to4_zero, fin3to4_one, fin3to4_two]
        linear_combination hc0
      · show (Matrix.transpose (rot3 V) * rot3 V) 0 1 = (0:ℝ)
        simp only [Matrix.mul_apply, Matrix.transpose_apply, Fin.sum_univ_three,
          rot3, Matrix.of_apply, fin3to4_zero, fin3to4_one, fin3to4_two]
        linear_combination hc01
      · show (Matrix.transpose (rot3 V) * rot3 V) 0 2 = (0:ℝ)
        simp only [Matrix.mul_apply, Matrix.transpose_apply, Fin.sum_univ_three,
          rot3, Matrix.of_apply, fin3to4_zero, fin3to4_one, fin3to4_two]
        linear_combination hc02
      · show (Matrix.transpose (rot3 V) * rot3 V) 1 0 = (0:ℝ)
        simp only [Matrix.mul_apply, Matrix.transpose_apply, Fin.sum_univ_three,
          rot3, Matrix.of_apply, fin3to4_zero, fin3to4_one, fin3to4_two]
        linear_combination hc01
      · show (Matrix.transpose (rot3 V) * rot3 V) 1 1 = (1:ℝ)
        simp only [Matrix.mul_apply, Matrix.transpose_apply, Fin.sum_univ_three,
          rot3, Matrix.of_apply, fin3to4_zero, fin3to4_one, fin3to4_two]
        linear_combination hc1
      · show (Matrix.transpose (rot3 V) * rot3 V) 1 2 = (0:ℝ)
        simp only [Matrix.mul_apply, Matrix.transpose_apply, Fin.sum_univ_three,
          rot3, Matrix.of_apply, fin3to4_zero, fin3to4_one, fin3to4_two]
        linear_combination hc12
      · show (Matrix.transpose (rot3 V) * rot3 V) 2 0 = (0:ℝ)
        simp only [Matrix.mul_apply, Matrix.transpose_apply, Fin.sum_univ_three,
          rot3, Matrix.of_apply, fin3to4_zero, fin3to4_one, fin3to4_two]
        linear_combination hc02
      · show (Matrix.transpose (rot3 V) * rot3 V) 2 1 = (0:ℝ)
        simp only [Matrix.mul_apply, Matrix.transpose_apply, Fin.sum_univ_three,
          rot3, Matrix.of_apply, fin3to4_zero, fin3to4_one, fin3to4_two]
        linear_combination hc12
      · show (Matrix.transpose (rot3 V) * rot3 V) 2 2 = (1:ℝ)
        simp only [Matrix.mul_apply, Matrix.transpose_apply, Fin.sum_univ_three,
          rot3, Matrix.of_apply, fin3to4_zero, fin3to4_one, fin3to4_two]
        linear_combination hc2
    exact ⟨Matrix.mul_eq_one_comm.mp hT, e03, e13, e23, e33⟩

/-- Counterexample for C2 as stated: `skewBlock` decomposes successfully,
but its `right` and `up` rows are both `(1,0,0)`, so the produced View's
3x3 block is not an orthonormal rotation (its first row has squared length
2): the View of a successful decomposition need not be rigid. -/
theorem C2_view_structure_counterexample :
    (DecomposeVP_ColMajor defaultConfig skewBlock).map Prod.fst = some skewView ∧
    ¬ IsRigid skewView := by
  constructor
  · rw [decompose_skew]
    rfl
  · rintro ⟨hR, -⟩
    have h := congrFun (congrFun hR 0) 0
    simp only [Matrix.mul_apply, Matrix.transpose_apply, Fin.sum_univ_three,
      rot3, Matrix.of_apply, fin3to4_zero, fin3to4_one, fin3to4_two,
      Matrix.one_apply] at h
    norm_num [show skewView 0 0 = (1:ℝ) from rfl,
      show skewView 0 1 = (1:ℝ) from rfl,
      show skewView 0 2 = (0:ℝ) from rfl] at h

/-- Witness for C2's amended theorem: the axis-aligned camera block has
mutually orthogonal direction rows, and the recovered View is rigid. -/
theorem C2_view_structure_witness : IsRigid (camView 5) := by
  have h := C2_view_structure defaultConfig (camBlock 5) (camView 5)
    (camProj defaultConfig) camGameProj (decompose_cam defaultConfig 5)
  refine h.2.2 ?_ ?_ ?_
  · norm_num [show camBlock 5 0 = (1:ℝ) from rfl, show camBlock 5 1 = (0:ℝ) from rfl,
      show camBlock 5 4 = (0:ℝ) from rfl, show camBlock 5 5 = (1:ℝ) from rfl,
      show camBlock 5 8 = (0:ℝ) from rfl, show camBlock 5 9 = (0:ℝ) from rfl]
  · norm_num [show camBlock 5 0 = (1:ℝ) from rfl, show camBlock 5 3 = (0:ℝ) from rfl,
      show camBlock 5 4 = (0:ℝ) from rfl, show camBlock 5 7 = (0:ℝ) from rfl,
      show camBlock 5 8 = (0:ℝ) from rfl, show camBlock 5 11 = (1:ℝ) from rfl]
  · norm_num [show camBlock 5 1 = (0:ℝ) from rfl, show camBlock 5 3 = (0:ℝ) from rfl,
      show camBlock 5 5 = (1:ℝ) from rfl, show camBlock 5 7 = (0:ℝ) from rfl,
      show camBlock 5 9 = (0:ℝ) from rfl, show camBlock 5 11 = (1:ℝ) from rfl]

/-! ## The ideal synthesized VP block -/

theorem xScale_ideal (r u f e : Fin 3 → ℝ) (xS yS A B : ℝ)
    (hrr : dot3 r r = 1) (hx0 : 0 ≤ xS) :
    xScaleOf (idealVP r u f e xS yS A B) = xS := by
  unfold xScaleOf
  rw [show idealVP r u f e xS yS A B 0 = xS * r 0 from rfl,
      show idealVP r u f e xS yS A B 4 = xS * r 1 from rfl,
      show idealVP r u f e xS yS A B 8 = xS * r 2 from rfl]
  have h : xS * r 0 * (xS * r 0) + xS * r 1 * (xS * r 1) + xS * r 2 * (xS * r 2)
      = xS ^ 2 * dot3 r r := by
    unfold dot3
    ring
  rw [h, hrr, mul_one, Real.sqrt_sq hx0]

theorem yScale_ideal (r u f e : Fin 3 → ℝ) (xS yS A B : ℝ)
    (huu : dot3 u u = 1) (hy0 : 0 ≤ yS) :
    yScaleOf (idealVP r u f e xS yS A B) = yS := by
  unfold yScaleOf
  rw [show idealVP r u f e xS yS A B 1 = yS * u 0 from rfl,
      show idealVP r u f e xS yS A B 5 = yS * u 1 from rfl,
      show idealVP r u f e xS yS A B 9 = yS * u 2 from rfl]
  have h : yS * u 0 * (yS * u 0) + yS * u 1 * (yS * u 1) + yS * u 2 * (yS * u 2)
      = yS ^ 2 * dot3 u u := by
    unfold dot3
    ring
  rw [h, huu, mul_one, Real.sqrt_sq hy0]

theorem prMag_ideal (r u f e : Fin 3 → ℝ) (xS yS A B : ℝ)
    (hff : dot3 f f = 1) :
    prMagOf (idealVP r u f e xS yS A B) = 1 := by
  unfold prMagOf
  rw [show idealVP r u f e xS yS A B 3 = f 0 from rfl,
      show idealVP r u f e xS yS A B 7 = f 1 from rfl,
      show idealVP r u f e xS yS A B 11 = f 2 from rfl]
  rw [show f 0 * f 0 + f 1 * f 1 + f 2 * f 2 = dot3 f f from rfl, hff,
    Real.sqrt_one]

/-- Decomposing an ideal VP block recovers exactly the ideal view matrix:
basis directions in the columns and the negated projected eye as the
translation row. -/
theorem decompose_ideal (cfg : ProxyConfig) (r u f e : Fin 3 → ℝ) (xS yS A B : ℝ)
    (hrr : dot3 r r = 1) (huu : dot3 u u = 1) (hff : dot3 f f = 1)
    (hru : dot3 r u = 0) (hrf : dot3 r f = 0) (huf : dot3 u f = 0)
    (hx0 : 0.001 ≤ xS) (hy0 : 0.001 ≤ yS) :
    (DecomposeVP_ColMajor cfg (idealVP r u f e xS yS A B)).map Prod.fst =
      some (idealView r u f e) := by
  have hxne : xS ≠ 0 := by intro h0; rw [h0] at hx0; norm_num at hx0
  have hyne : yS ≠ 0 := by intro h0; rw [h0] at hy0; norm_num at hy0
  have hxe := xScale_ideal r u f e xS yS A B hrr (by linarith)
  have hye := yScale_ideal r u f e xS yS A B huu (by linarith)
  have hpr := prMag_ideal r u f e xS yS A B hff
  have c1 : ∀ a : ℝ, xS * a / xS = a := fun a => mul_div_cancel_left₀ a hxne
  have c2 : ∀ a : ℝ, yS * a / yS = a := fun a => mul_div_cancel_left₀ a hyne
  simp only [DecomposeVP_ColMajor]
  rw [hxe, hye, hpr]
  rw [if_neg (by push_neg; constructor <;> linarith),
      if_neg (by norm_num : ¬ (1:ℝ) < 0.001)]
  rw [show idealVP r u f e xS yS A B 0 = xS * r 0 from rfl,
      show idealVP r u f e xS yS A B 4 = xS * r 1 from rfl,
      show idealVP r u f e xS yS A B 8 = xS * r 2 from rfl,
      show idealVP r u f e xS yS A B 1 = yS * u 0 from rfl,
      show idealVP r u f e xS yS A B 5 = yS * u 1 from rfl,
      show idealVP r u f e xS yS A B 9 = yS * u 2 from rfl,
      show idealVP r u f e xS yS A B 3 = f 0 from rfl,
      show idealVP r u f e xS yS A B 7 = f 1 from rfl,
      show idealVP r u f e xS yS A B 11 = f 2 from rfl,
      show idealVP r u f e xS yS A B 12 = -(xS * dot3 r e) from rfl,
      show idealVP r u f e xS yS A B 13 = -(yS * dot3 u e) from rfl,
      show idealVP r u f e xS yS A B 15 = -(dot3 f e) from rfl]
  simp only [neg_neg, div_one, c1, c2, Option.map_some']
  refine congrArg some ?_
  unfold dot3 at hrr huu hff hru hrf huf
  funext rr cc
  fin_cases rr <;> fin_cases cc <;>
    norm_num [idealView]
  · linear_combination (-(dot3 r e)) * hrr + (-(dot3 u e)) * hru +
      (-(dot3 f e)) * hrf
  · linear_combination (-(dot3 r e)) * hru + (-(dot3 u e)) * huu +
      (-(dot3 f e)) * huf
  · linear_combination (-(dot3 r e)) * hrf + (-(dot3 u e)) * huf +
      (-(dot3 f e)) * hff

/-- C5: every ideal column-major VP block synthesized from an orthonormal
`right`/`up`/`forward` basis, a known eye and in-range projection scales
passes the scorer's hard gates (score at least 9), decomposes successfully,
recovers the eye through `rDotEye*right + uDotEye*up + fDotEye*forward`
exactly, and yields a View whose negated translation row projected onto the
basis reproduces the eye exactly (exact arithmetic subsumes the spec's 1e-3
tolerance). -/
theorem C5_ideal_roundtrip (cfg : ProxyConfig) (r u f e : Fin 3 → ℝ)
    (xS yS A B : ℝ)
    (hrr : dot3 r r = 1) (huu : dot3 u u = 1) (hff : dot3 f f = 1)
    (hru : dot3 r u = 0) (hrf : dot3 r f = 0) (huf : dot3 u f = 0)
    (hx1 : 0.3 ≤ xS) (hx2 : xS ≤ 5) (hy1 : 0.3 ≤ yS) (hy2 : yS ≤ 5) :
    9 ≤ ScoreAsVP (fun i => .finite (idealVP r u f e xS yS A B i)) ∧
    (∃ V P G,
      DecomposeVP_ColMajor cfg (idealVP r u f e xS yS A B) = some (V, P, G) ∧
      V = idealView r u f e ∧
      (∀ i : Fin 3,
        -(idealVP r u f e xS yS A B 12) / xScaleOf (idealVP r u f e xS yS A B) * r i +
        -(idealVP r u f e xS yS A B 13) / yScaleOf (idealVP r u f e xS yS A B) * u i +
        -(idealVP r u f e xS yS A B 15) * f i = e i) ∧
      (∀ i : Fin 3, -(V 3 0) * r i + -(V 3 1) * u i + -(V 3 2) * f i = e i)) := by
  have hxne : xS ≠ 0 := by intro h0; rw [h0] at hx1; norm_num at hx1
  have hyne : yS ≠ 0 := by intro h0; rw [h0] at hy1; norm_num at hy1
  have hxe := xScale_ideal r u f e xS yS A B hrr (by linarith)
  have hye := yScale_ideal r u f e xS yS A B huu (by linarith)
  have hpr := prMag_ideal r u f e xS yS A B hff
  have c1 : ∀ a : ℝ, xS * a / xS = a := fun a => mul_div_cancel_left₀ a hxne
  have c2 : ∀ a : ℝ, yS * a / yS = a := fun a => mul_div_cancel_left₀ a hyne
  constructor
  · unfold ScoreAsVP
    have hfin : ∀ i : Fin 16,
        ((fun i => FloatVal.finite (idealVP r u f e xS yS A B i)) i).isfinite = true :=
      fun i => rfl
    rw [if_pos hfin]
    have ht : toReals (fun i => FloatVal.finite (idealVP r u f e xS yS A B i)) =
        idealVP r u f e xS yS A B := rfl
    rw [ht]
    simp only [ScoreAsVPFinite]
    rw [hxe, hye, hpr]
    rw [if_pos (show (0.8:ℝ) ≤ 1 ∧ (1:ℝ) ≤ 1.2 by norm_num),
        if_pos ⟨hx1, hx2⟩, if_pos ⟨hy1, hy2⟩]
    split_ifs <;> norm_num
  · have hmap := decompose_ideal cfg r u f e xS yS A B hrr huu hff hru hrf huf
      (by linarith) (by linarith)
    rcases hd : DecomposeVP_ColMajor cfg (idealVP r u f e xS yS A B) with _ | ⟨V, P, G⟩
    · rw [hd] at hmap
      cases hmap
    · rw [hd] at hmap
      simp only [Option.map_some', Option.some.injEq] at hmap
      refine ⟨V, P, G, rfl, hmap, ?_, ?_⟩
      · intro i
        rw [hxe, hye,
          show idealVP r u f e xS yS A B 12 = -(xS * dot3 r e) from rfl,
          show idealVP r u f e xS yS A B 13 = -(yS * dot3 u e) from rfl,
          show idealVP r u f e xS yS A B 15 = -(dot3 f e) from rfl]
        simp only [neg_neg, c1, c2]
        exact basis_complete r u f hrr huu hff hru hrf huf e i
      · intro i
        rw [hmap,
          show idealView r u f e 3 0 = -(dot3 r e) from rfl,
          show idealView r u f e 3 1 = -(dot3 u e) from rfl,
          show idealView r u f e 3 2 = -(dot3 f e) from rfl]
        simp only [neg_neg]
        exact basis_complete r u f hrr huu hff hru hrf huf e i

/-- Witness for C5 at the standard basis with the eye at `(3,4,5)` and unit
projection scales. -/
theorem C5_ideal_roundtrip_witness :
    9 ≤ ScoreAsVP
      (fun i => .finite (idealVP ![1,0,0] ![0,1,0] ![0,0,1] ![3,4,5] 1 1 0 0 i)) :=
  (C5_ideal_roundtrip defaultConfig ![1,0,0] ![0,1,0] ![0,0,1] ![3,4,5] 1 1 0 0
    (by norm_num [dot3]) (by norm_num [dot3]) (by norm_num [dot3])
    (by norm_num [dot3]) (by norm_num [dot3]) (by norm_num [dot3])
    (by norm_num) (by norm_num) (by norm_num) (by norm_num)).1

/-! ## State-machine lemmas -/

/-- An upload never changes the lock phase. -/
theorem upload_detectState (cfg : ProxyConfig) (s : DevState) (b : RawBlock) :
    (SetVertexShaderConstantF cfg s b).1.detectState = s.detectState := by
  rcases hdec : DecomposeVP_ColMajor cfg (toReals b) with _ | ⟨v, p, g⟩ <;>
    simp only [SetVertexShaderConstantF, hdec] <;>
    split_ifs <;> simp_all

/-- `BeginScene` never changes the state. -/
theorem beginScene_state (s : DevState) : (BeginScene s).1 = s := by
  unfold BeginScene
  split_ifs <;> rfl

/-- `LOCKED` is absorbing for every event. -/
theorem step_locked (cfg : ProxyConfig) (s : DevState) (e : DevEvent)
    (h : s.detectState = .LOCKED) : (step cfg s e).1.detectState = .LOCKED := by
  cases e
  case constantUpload b =>
    rw [show step cfg s (.constantUpload b) = SetVertexShaderConstantF cfg s b from rfl,
      upload_detectState]
    exact h
  case present =>
    rcases hdec : DecomposeVP_ColMajor cfg (toReals s.frameBestVP) with _ | ⟨v, p, g⟩ <;>
      simp only [step, Present, hdec, h] <;>
      split_ifs <;> simp_all
  case beginScene =>
    rw [show step cfg s .beginScene = BeginScene s from rfl, beginScene_state]
    exact h

/-- The camera flags that stay false while scanning. -/
def ScanInv (s : DevState) : Prop :=
    s.hasCamera = false ∧ s.hasVPInverse = false ∧ s.pendingUpdate = false

/-- A step taken from a scanning state that stays scanning emits no
transform call and preserves the scanning flags. -/
theorem step_scanning_silent (cfg : ProxyConfig) (s : DevState) (e : DevEvent)
    (hs : s.detectState = .SCANNING) (hi : ScanInv s)
    (h' : (step cfg s e).1.detectState = .SCANNING) :
    (step cfg s e).2 = [] ∧ ScanInv (step cfg s e).1 := by
  obtain ⟨hc, hv, hp⟩ := hi
  cases e
  case constantUpload b =>
    rcases hdec : DecomposeVP_ColMajor cfg (toReals b) with _ | ⟨v, p, g⟩ <;>
      simp only [step, SetVertexShaderConstantF, hdec] <;>
      split_ifs <;> simp_all [ScanInv]
  case present =>
    rcases hdec : DecomposeVP_ColMajor cfg (toReals s.frameBestVP) with _ | ⟨v, p, g⟩ <;>
      simp only [step, Present, hdec] at h' ⊢ <;>
      split_ifs at h' ⊢ <;> simp_all [ScanInv]
  case beginScene =>
    simp only [step, BeginScene]
    split_ifs <;> simp_all [ScanInv]

/-- `LOCKED` is absorbing for runs. -/
theorem run_locked (cfg : ProxyConfig) (evs : List DevEvent) :
    ∀ s : DevState, s.detectState = .LOCKED →
      (run cfg s evs).1.detectState = .LOCKED := by
  induction evs with
  | nil => intro s h; exact h
  | cons e es ih =>
    intro s h
    simp only [run]
    exact ih _ (step_locked cfg s e h)

/-- A run that ends scanning was scanning throughout: it emitted no
transform call and kept the camera flags false. -/
theorem run_scanning_silent (cfg : ProxyConfig) (evs : List DevEvent) :
    ∀ s : DevState, s.detectState = .SCANNING → ScanInv s →
      (run cfg s evs).1.detectState = .SCANNING →
      (run cfg s evs).2 = [] ∧ ScanInv (run cfg s evs).1 := by
  induction evs with
  | nil => intro s _ hi _; exact ⟨rfl, hi⟩
  | cons e es ih =>
    intro s hs hi hfin
    simp only [run] at hfin ⊢
    have hmid : (step cfg s e).1.detectState = .SCANNING := by
      cases hc : (step cfg s e).1.detectState
      · rfl
      · rw [run_locked cfg es _ hc] at hfin
        cases hfin
    obtain ⟨ho, hi'⟩ := step_scanning_silent cfg s e hs hi hmid
    obtain ⟨ho', hi''⟩ := ih _ hmid hi' hfin
    exact ⟨by rw [ho, ho']; rfl, hi''⟩

/-- C7: in every reachable state still in the `scanning` phase, no camera
transform (View, Projection or World) has ever been pushed to the transform
sink, whatever events were processed; transforms are emitted only at or
after the transition to `locked`. -/
theorem C7_scanning_pushes_nothing (cfg : ProxyConfig) (evs : List DevEvent)
    (h : (run cfg initState evs).1.detectState = .SCANNING) :
    (run cfg initState evs).2 = [] :=
  (run_scanning_silent cfg evs initState rfl ⟨rfl, rfl, rfl⟩ h).1

/-- Witness for C7 on the empty event sequence. -/
theorem C7_scanning_pushes_nothing_witness :
    (run defaultConfig initState []).2 = [] :=
  C7_scanning_pushes_nothing defaultConfig [] rfl

/-- Upload of a positively scored block in `SCANNING` state with an empty
per-frame best: the block becomes the frame's best candidate, nothing else
changes, and nothing is emitted. -/
theorem upload_scan_fields (cfg : ProxyConfig) (s : DevState) (b : RawBlock)
    (hs : s.detectState = .SCANNING) (h0 : s.frameBestScore = 0)
    (hsc : 0 < ScoreAsVP b) :
    (SetVertexShaderConstantF cfg s b).1.detectState = .SCANNING ∧
    (SetVertexShaderConstantF cfg s b).1.frameBestVP = b ∧
    (SetVertexShaderConstantF cfg s b).1.frameBestScore = ScoreAsVP b ∧
    (SetVertexShaderConstantF cfg s b).1.hasFrameCandidate = true ∧
    (SetVertexShaderConstantF cfg s b).1.consecutiveFrames = s.consecutiveFrames ∧
    (SetVertexShaderConstantF cfg s b).1.prevVP44 = s.prevVP44 ∧
    (SetVertexShaderConstantF cfg s b).1.pendingUpdate = s.pendingUpdate ∧
    (SetVertexShaderConstantF cfg s b).1.hasCamera = s.hasCamera ∧
    (SetVertexShaderConstantF cfg s b).1.lastView = s.lastView ∧
    (SetVertexShaderConstantF cfg s b).2 = [] := by
  simp only [SetVertexShaderConstantF]
  rw [if_pos (show ScoreAsVP b > s.frameBestScore by rw [h0]; exact hsc)]
  simp [hs]

/-- `Present` in `SCANNING` with a frame candidate, when the (possibly
incremented) consecutive-evidence counter stays below 3: the counter follows
the motion test, the previous-scalar tracker is updated, the per-frame
bookkeeping is reset, the state stays `SCANNING` and nothing is emitted. -/
theorem present_scan_nolock (cfg : ProxyConfig) (s : DevState)
    (hs : s.detectState = .SCANNING) (hf : s.hasFrameCandidate = true)
    (hpu : s.pendingUpdate = false)
    (hlt : (if 0.01 < |(s.frameBestVP 15).toReal - s.prevVP44|
            then s.consecutiveFrames + 1 else s.consecutiveFrames) < 3) :
    (Present cfg s).1.detectState = .SCANNING ∧
    (Present cfg s).1.consecutiveFrames =
      (if 0.01 < |(s.frameBestVP 15).toReal - s.prevVP44|
       then s.consecutiveFrames + 1 else s.consecutiveFrames) ∧
    (Present cfg s).1.prevVP44 = (s.frameBestVP 15).toReal ∧
    (Present cfg s).1.frameBestScore = 0 ∧
    (Present cfg s).1.hasFrameCandidate = false ∧
    (Present cfg s).1.pendingUpdate = false ∧
    (Present cfg s).1.hasCamera = s.hasCamera ∧
    (Present cfg s).1.lastView = s.lastView ∧
    (Present cfg s).2 = [] := by
  simp only [Present]
  rw [if_pos (show s.detectState = .SCANNING ∧ s.hasFrameCandidate from ⟨hs, hf⟩)]
  by_cases h1 : |(s.frameBestVP 15).toReal - s.prevVP44| > 0.01
  · rw [if_pos h1] at hlt ⊢
    rw [if_neg (show ¬ s.consecutiveFrames + 1 ≥ 3 by omega)]
    split_ifs <;> simp_all
  · rw [if_neg h1] at hlt ⊢
    rw [if_neg (show ¬ s.consecutiveFrames ≥ 3 by omega)]
    split_ifs <;> simp_all

/-- `Present` in `SCANNING` with a frame candidate, when the counter reaches
3: the state locks, and if the frame's best block decomposes, the committed
camera is seeded from it immediately. -/
theorem present_scan_lock (cfg : ProxyConfig) (s : DevState)
    (hs : s.detectState = .SCANNING) (hf : s.hasFrameCandidate = true)
    (hpu : s.pendingUpdate = false)
    (hge : 3 ≤ (if 0.01 < |(s.frameBestVP 15).toReal - s.prevVP44|
                then s.consecutiveFrames + 1 else s.consecutiveFrames)) :
    (Present cfg s).1.detectState = .LOCKED ∧
    (∀ v p g, DecomposeVP_ColMajor cfg (toReals s.frameBestVP) = some (v, p, g) →
      (Present cfg s).1.lastView = v ∧ (Present cfg s).1.lastProj = p ∧
      (Present cfg s).1.lastGameProj = g ∧ (Present cfg s).1.hasCamera = true) := by
  rcases hdec : DecomposeVP_ColMajor cfg (toReals s.frameBestVP) with _ | ⟨v0, p0, g0⟩
  · simp only [Present, hdec]
    rw [if_pos (show s.detectState = .SCANNING ∧ s.hasFrameCandidate from ⟨hs, hf⟩)]
    constructor
    · by_cases h1 : |(s.frameBestVP 15).toReal - s.prevVP44| > 0.01
      · rw [if_pos h1] at hge ⊢
        rw [if_pos (show s.consecutiveFrames + 1 ≥ 3 from hge)]
        split_ifs <;> simp_all
      · rw [if_neg h1] at hge ⊢
        rw [if_pos (show s.consecutiveFrames ≥ 3 from hge)]
        split_ifs <;> simp_all
    · intro v p g hvpg
      exact Option.noConfusion hvpg
  · simp only [Present, hdec]
    rw [if_pos (show s.detectState = .SCANNING ∧ s.hasFrameCandidate from ⟨hs, hf⟩)]
    constructor
    · by_cases h1 : |(s.frameBestVP 15).toReal - s.prevVP44| > 0.01
      · rw [if_pos h1] at hge ⊢
        rw [if_pos (show s.consecutiveFrames + 1 ≥ 3 from hge)]
        split_ifs <;> simp_all
      · rw [if_neg h1] at hge ⊢
        rw [if_pos (show s.consecutiveFrames ≥ 3 from hge)]
        split_ifs <;> simp_all
    · intro v p g hvpg
      simp only [Option.some.injEq, Prod.mk.injEq] at hvpg
      obtain ⟨hv, hp, hg⟩ := hvpg
      subst hv
      subst hp
      subst hg
      by_cases h1 : |(s.frameBestVP 15).toReal - s.prevVP44| > 0.01
      · rw [if_pos h1] at hge ⊢
        rw [if_pos (show s.consecutiveFrames + 1 ≥ 3 from hge)]
        split_ifs <;> simp_all
      · rw [if_neg h1] at hge ⊢
        rw [if_pos (show s.consecutiveFrames ≥ 3 from hge)]
        split_ifs <;> simp_all

/-- The per-frame counter rule of `Present` in scanning: increment exactly
when the best scalar moved by more than the threshold, else unchanged. -/
theorem present_counter (cfg : ProxyConfig) (s : DevState)
    (hs : s.detectState = .SCANNING) (hf : s.hasFrameCandidate = true) :
    (Present cfg s).1.consecutiveFrames =
      (if 0.01 < |(s.frameBestVP 15).toReal - s.prevVP44|
       then s.consecutiveFrames + 1 else s.consecutiveFrames) := by
  rcases hdec : DecomposeVP_ColMajor cfg (toReals s.frameBestVP) with _ | ⟨v0, p0, g0⟩ <;>
    simp only [Present, hdec] <;>
    rw [if_pos (show s.detectState = .SCANNING ∧ s.hasFrameCandidate from ⟨hs, hf⟩)] <;>
    split_ifs <;> simp_all

/-- A full run of frames whose best-scalar deltas never exceed the motion
threshold keeps the detector scanning. -/
theorem scanFrames (cfg : ProxyConfig) :
    ∀ (bs : List RawBlock) (s : DevState),
      s.detectState = .SCANNING → s.frameBestScore = 0 →
      s.hasFrameCandidate = false → s.pendingUpdate = false →
      s.consecutiveFrames = 0 →
      (∀ b ∈ bs, 0 < ScoreAsVP b) →
      List.Chain (fun a c => |c - a| ≤ 0.01) s.prevVP44
        (bs.map fun b => (b 15).toReal) →
      (run cfg s (frameEvents bs)).1.detectState = .SCANNING := by
  intro bs
  induction bs with
  | nil =>
    intro s hs _ _ _ _ _ _
    simpa [frameEvents, run] using hs
  | cons b bs ih =>
    intro s hs h0 hf hpu hc0 hsc hch
    rw [List.map_cons, List.chain_cons] at hch
    obtain ⟨hd, htl⟩ := hch
    obtain ⟨hu1, hu2, hu3, hu4, hu5, hu6, hu7, hu8, hu9, hu10⟩ :=
      upload_scan_fields cfg s b hs h0 (hsc b (List.mem_cons_self b bs))
    have hlt : (if 0.01 < |((SetVertexShaderConstantF cfg s b).1.frameBestVP 15).toReal -
          (SetVertexShaderConstantF cfg s b).1.prevVP44|
        then (SetVertexShaderConstantF cfg s b).1.consecutiveFrames + 1
        else (SetVertexShaderConstantF cfg s b).1.consecutiveFrames) < 3 := by
      rw [hu2, hu5, hu6, hc0, if_neg (not_lt.mpr hd)]
      norm_num
    obtain ⟨hp1, hp2, hp3, hp4, hp5, hp6, hp7, hp8, hp9⟩ :=
      present_scan_nolock cfg (SetVertexShaderConstantF cfg s b).1 hu1 hu4
        (by rw [hu7, hpu]) hlt
    have hc0' : (Present cfg (SetVertexShaderConstantF cfg s b).1).1.consecutiveFrames = 0 := by
      rw [hp2, hu2, hu5, hu6, hc0, if_neg (not_lt.mpr hd)]
    have hprev : (Present cfg (SetVertexShaderConstantF cfg s b).1).1.prevVP44 =
        (b 15).toReal := by
      rw [hp3, hu2]
    simp only [frameEvents, run, step]
    exact ih _ hp1 hp4 hp5 hp6 hc0'
      (fun b' hb' => hsc b' (List.mem_cons_of_mem b hb'))
      (by rw [hprev]; exact htl)

set_option maxHeartbeats 2000000 in
/-- Three consecutive qualifying frames (positive score, best-scalar deltas
above the motion threshold) drive a fresh device from scanning to locked on
exactly the third frame, seeding the committed camera from the third
frame's candidate when it decomposes. -/
theorem lock_three_frames (cfg : ProxyConfig) (b1 b2 b3 : RawBlock)
    (hsc1 : 0 < ScoreAsVP b1) (hsc2 : 0 < ScoreAsVP b2) (hsc3 : 0 < ScoreAsVP b3)
    (hq1 : 0.01 < |(b1 15).toReal - 0|)
    (hq2 : 0.01 < |(b2 15).toReal - (b1 15).toReal|)
    (hq3 : 0.01 < |(b3 15).toReal - (b2 15).toReal|) :
    (run cfg initState (frameEvents [b1])).1.detectState = .SCANNING ∧
    (run cfg initState (frameEvents [b1, b2])).1.detectState = .SCANNING ∧
    (run cfg initState (frameEvents [b1, b2, b3])).1.detectState = .LOCKED ∧
    (∀ v p g, DecomposeVP_ColMajor cfg (toReals b3) = some (v, p, g) →
      (run cfg initState (frameEvents [b1, b2, b3])).1.lastView = v ∧
      (run cfg initState (frameEvents [b1, b2, b3])).1.hasCamera = true) := by
  obtain ⟨hu1, hu2, hu3, hu4, hu5, hu6, hu7, hu8, hu9, hu10⟩ :=
    upload_scan_fields cfg initState b1 rfl rfl hsc1
  have hlt1 : (if 0.01 < |((SetVertexShaderConstantF cfg initState b1).1.frameBestVP 15).toReal -
        (SetVertexShaderConstantF cfg initState b1).1.prevVP44|
      then (SetVertexShaderConstantF cfg initState b1).1.consecutiveFrames + 1
      else (SetVertexShaderConstantF cfg initState b1).1.consecutiveFrames) < 3 := by
    rw [hu2, hu5, hu6]
    rw [if_pos (show (0.01:ℝ) < |(b1 15).toReal - initState.prevVP44| from hq1)]
    norm_num [initState]
  obtain ⟨hp1, hp2, hp3, hp4, hp5, hp6, hp7, hp8, hp9⟩ :=
    present_scan_nolock cfg (SetVertexShaderConstantF cfg initState b1).1 hu1 hu4
      (by rw [hu7]; rfl) hlt1
  have hF1c : (Present cfg (SetVertexShaderConstantF cfg initState b1).1).1.consecutiveFrames = 1 := by
    rw [hp2, hu2, hu5, hu6]
    rw [if_pos (show (0.01:ℝ) < |(b1 15).toReal - initState.prevVP44| from hq1)]
    rfl
  have hF1p : (Present cfg (SetVertexShaderConstantF cfg initState b1).1).1.prevVP44 =
      (b1 15).toReal := by rw [hp3, hu2]
  refine ⟨?_, ?_, ?_, ?_⟩
  · simp only [frameEvents, run, step]
    exact hp1
  all_goals {
    obtain ⟨hv1, hv2, hv3, hv4, hv5, hv6, hv7, hv8, hv9, hv10⟩ :=
      upload_scan_fields cfg (Present cfg (SetVertexShaderConstantF cfg initState b1).1).1
        b2 hp1 hp4 hsc2
    have hlt2 : (if 0.01 < |((SetVertexShaderConstantF cfg
          (Present cfg (SetVertexShaderConstantF cfg initState b1).1).1 b2).1.frameBestVP 15).toReal -
          (SetVertexShaderConstantF cfg
            (Present cfg (SetVertexShaderConstantF cfg initState b1).1).1 b2).1.prevVP44|
        then (SetVertexShaderConstantF cfg
          (Present cfg (SetVertexShaderConstantF cfg initState b1).1).1 b2).1.consecutiveFrames + 1
        else (SetVertexShaderConstantF cfg
          (Present cfg (SetVertexShaderConstantF cfg initState b1).1).1 b2).1.consecutiveFrames) < 3 := by
      rw [hv2, hv5, hv6, hF1c, hF1p, if_pos hq2]
      norm_num
    obtain ⟨hq1', hq2', hq3', hq4', hq5', hq6', hq7', hq8', hq9'⟩ :=
      present_scan_nolock cfg _ hv1 hv4 (by rw [hv7, hp6]) hlt2
    have hF2c : (Present cfg (SetVertexShaderConstantF cfg
        (Present cfg (SetVertexShaderConstantF cfg initState b1).1).1 b2).1).1.consecutiveFrames = 2 := by
      rw [hq2', hv2, hv5, hv6, hF1c, hF1p, if_pos hq2]
      rfl
    have hF2p : (Present cfg (SetVertexShaderConstantF cfg
        (Present cfg (SetVertexShaderConstantF cfg initState b1).1).1 b2).1).1.prevVP44 =
        (b2 15).toReal := by rw [hq3', hv2]
    first
    | (simp only [frameEvents, run, step]
       exact hq1')
    | (obtain ⟨hw1, hw2, hw3, hw4, hw5, hw6, hw7, hw8, hw9, hw10⟩ :=
         upload_scan_fields cfg _ b3 hq1' hq4' hsc3
       have hge3 : 3 ≤ (if 0.01 < |((SetVertexShaderConstantF cfg
           (Present cfg (SetVertexShaderConstantF cfg
             (Present cfg (SetVertexShaderConstantF cfg initState b1).1).1 b2).1).1
               b3).1.frameBestVP 15).toReal -
           (SetVertexShaderConstantF cfg
             (Present cfg (SetVertexShaderConstantF cfg
               (Present cfg (SetVertexShaderConstantF cfg initState b1).1).1 b2).1).1
                 b3).1.prevVP44|
         then (SetVertexShaderConstantF cfg
           (Present cfg (SetVertexShaderConstantF cfg
             (Present cfg (SetVertexShaderConstantF cfg initState b1).1).1 b2).1).1
               b3).1.consecutiveFrames + 1
         else (SetVertexShaderConstantF cfg
           (Present cfg (SetVertexShaderConstantF cfg
             (Present cfg (SetVertexShaderConstantF cfg initState b1).1).1 b2).1).1
               b3).1.consecutiveFrames) := by
         rw [hw2, hw5, hw6, hF2c, hF2p, if_pos hq3]
         omega
       have hlock := present_scan_lock cfg _ hw1 hw4 (by rw [hw7, hq6']) hge3
       simp only [frameEvents, run, step]
       first
       | exact hlock.1
       | (intro v p g hvpg
          have hbest : (SetVertexShaderConstantF cfg
              (Present cfg (SetVertexShaderConstantF cfg
                (Present cfg (SetVertexShaderConstantF cfg initState b1).1).1 b2).1).1
                  b3).1.frameBestVP = b3 := hw2
          obtain ⟨hl1, hl2, hl3, hl4⟩ := hlock.2 v p g (by rw [hbest]; exact hvpg)
          exact ⟨hl1, hl4⟩))
  }

set_option maxHeartbeats 2000000 in
/-- C3: the lock state machine starts in `scanning`; each frame with a best
candidate compares the best scalar `f[15]` against the previous frame's
value and increments the consecutive-evidence counter exactly when the
absolute delta exceeds 0.01, leaving it unchanged (never resetting)
otherwise; any sequence of frames whose deltas stay at or below the
threshold leaves the detector scanning indefinitely; three consecutive
qualifying frames from the start lock the detector exactly on the third
frame (still scanning after frames 1 and 2), the transition immediately
decomposes the current best candidate to seed the committed camera, and
`locked` is absorbing, so the transition happens exactly once. -/
theorem C3_lock_state_machine (cfg : ProxyConfig) :
    initState.detectState = .SCANNING ∧
    (∀ s : DevState, s.detectState = .SCANNING → s.hasFrameCandidate = true →
      (Present cfg s).1.consecutiveFrames =
        (if 0.01 < |(s.frameBestVP 15).toReal - s.prevVP44|
         then s.consecutiveFrames + 1 else s.consecutiveFrames)) ∧
    (∀ bs : List RawBlock, (∀ b ∈ bs, 0 < ScoreAsVP b) →
      List.Chain (fun a c => |c - a| ≤ 0.01) 0 (bs.map fun b => (b 15).toReal) →
      (run cfg initState (frameEvents bs)).1.detectState = .SCANNING) ∧
    (∀ b1 b2 b3 : RawBlock,
      0 < ScoreAsVP b1 → 0 < ScoreAsVP b2 → 0 < ScoreAsVP b3 →
      0.01 < |(b1 15).toReal - 0| →
      0.01 < |(b2 15).toReal - (b1 15).toReal| →
      0.01 < |(b3 15).toReal - (b2 15).toReal| →
      (run cfg initState (frameEvents [b1])).1.detectState = .SCANNING ∧
      (run cfg initState (frameEvents [b1, b2])).1.detectState = .SCANNING ∧
      (run cfg initState (frameEvents [b1, b2, b3])).1.detectState = .LOCKED ∧
      (∀ v p g, DecomposeVP_ColMajor cfg (toReals b3) = some (v, p, g) →
        (run cfg initState (frameEvents [b1, b2, b3])).1.lastView = v ∧
        (run cfg initState (frameEvents [b1, b2, b3])).1.hasCamera = true)) ∧
    (∀ (s : DevState) (e : DevEvent), s.detectState = .LOCKED →
      (step cfg s e).1.detectState = .LOCKED) := by
  refine ⟨rfl, present_counter cfg, ?_, ?_, fun s e h => step_locked cfg s e h⟩
  · intro bs hsc hch
    exact scanFrames cfg bs initState rfl rfl rfl rfl rfl hsc hch
  · intro b1 b2 b3 hsc1 hsc2 hsc3 hq1 hq2 hq3
    exact lock_three_frames cfg b1 b2 b3 hsc1 hsc2 hsc3 hq1 hq2 hq3

/-- Witness for C3: three ideal camera frames at distances 1000, 2000, 3000
leave the detector scanning after frames 1 and 2 and locked after frame 3,
with the third frame's view committed. -/
theorem C3_lock_state_machine_witness :
    (run defaultConfig initState (frameEvents [camBlockF 1000])).1.detectState = .SCANNING ∧
    (run defaultConfig initState
      (frameEvents [camBlockF 1000, camBlockF 2000])).1.detectState = .SCANNING ∧
    (run defaultConfig initState
      (frameEvents [camBlockF 1000, camBlockF 2000, camBlockF 3000])).1.detectState = .LOCKED ∧
    (run defaultConfig initState
      (frameEvents [camBlockF 1000, camBlockF 2000, camBlockF 3000])).1.lastView = camView 3000 := by
  have e1 : (camBlockF (1000:ℝ) 15).toReal = -1000 := rfl
  have e2 : (camBlockF (2000:ℝ) 15).toReal = -2000 := rfl
  have e3 : (camBlockF (3000:ℝ) 15).toReal = -3000 := rfl
  have hsc1 : 0 < ScoreAsVP (camBlockF 1000) := by
    rw [score_cam, if_pos (show (10:ℝ) < |(1000:ℝ)| by norm_num)]; norm_num
  have hsc2 : 0 < ScoreAsVP (camBlockF 2000) := by
    rw [score_cam, if_pos (show (10:ℝ) < |(2000:ℝ)| by norm_num)]; norm_num
  have hsc3 : 0 < ScoreAsVP (camBlockF 3000) := by
    rw [score_cam, if_pos (show (10:ℝ) < |(3000:ℝ)| by norm_num)]; norm_num
  obtain ⟨W1, W2, W3, W4⟩ :=
    (C3_lock_state_machine defaultConfig).2.2.2.1 (camBlockF 1000) (camBlockF 2000)
      (camBlockF 3000) hsc1 hsc2 hsc3
      (by rw [e1]; norm_num) (by rw [e2, e1]; norm_num) (by rw [e3, e2]; norm_num)
  refine ⟨W1, W2, W3, ?_⟩
  exact (W4 (camView 3000) (camProj defaultConfig) camGameProj
    (by rw [show toReals (camBlockF (3000:ℝ)) = camBlock 3000 from rfl]
        exact decompose_cam defaultConfig 3000)).1

/-- In `LOCKED` state a qualifying upload (score at least 6) whose block
decomposes overwrites the pending camera with its own decomposition, on top
of the usual best-candidate tracking; nothing else changes when a camera
already exists. -/
theorem upload_locked_pending (cfg : ProxyConfig) (s : DevState) (b : RawBlock)
    (hs : s.detectState = .LOCKED) (hcam : s.hasCamera = true)
    (hscore : 6 ≤ ScoreAsVP b) (v p g : M4)
    (hdec : DecomposeVP_ColMajor cfg (toReals b) = some (v, p, g)) :
    (SetVertexShaderConstantF cfg s b).1 =
      { s with
        frameBestScore :=
          if ScoreAsVP b > s.frameBestScore then ScoreAsVP b else s.frameBestScore,
        frameBestVP :=
          if ScoreAsVP b > s.frameBestScore then b else s.frameBestVP,
        hasFrameCandidate :=
          if ScoreAsVP b > s.frameBestScore then true else s.hasFrameCandidate,
        pendingView := v, pendingProj := p, pendingGameProj := g,
        pendingUpdate := true } := by
  simp only [SetVertexShaderConstantF, hdec]
  by_cases hb : ScoreAsVP b > s.frameBestScore
  · simp [hb, hs, hcam, hscore]
  · simp [hb, hs, hcam, hscore]

/-- In `LOCKED` state `Present` commits the pending camera (when one is
pending and a camera exists) and resets the per-frame bookkeeping. -/
theorem present_locked_commit (cfg : ProxyConfig) (s : DevState)
    (hs : s.detectState = .LOCKED) (hpu : s.pendingUpdate = true)
    (hcam : s.hasCamera = true) :
    (Present cfg s).1 =
      { s with lastView := s.pendingView, lastProj := s.pendingProj,
               lastGameProj := s.pendingGameProj,
               vpInverse := MultiplyD3D (InvertProj s.pendingGameProj)
                 (InvertView s.pendingView),
               hasVPInverse := true, pendingUpdate := false,
               hasFrameCandidate := false, frameBestScore := 0 } ∧
    (Present cfg s).2 =
      [TransformCall.view s.pendingView, TransformCall.proj s.pendingProj] := by
  simp only [Present]
  rw [if_neg (show ¬(s.detectState = .SCANNING ∧ s.hasFrameCandidate = true) by
    intro h; rw [hs] at h; exact DetectState.noConfusion h.1)]
  rw [if_pos (show s.pendingUpdate = true ∧ s.hasCamera = true from ⟨hpu, hcam⟩)]
  exact ⟨rfl, rfl⟩

/-- Running a concatenated event list reaches the same state as running the
two halves in sequence. -/
theorem run_append (cfg : ProxyConfig) (es1 : List DevEvent) :
    ∀ (s : DevState) (es2 : List DevEvent),
      (run cfg s (es1 ++ es2)).1 = (run cfg (run cfg s es1).1 es2).1 := by
  induction es1 with
  | nil => intro s es2; rfl
  | cons e es ih =>
    intro s es2
    simp only [List.cons_append, run]
    exact ih _ es2

set_option maxHeartbeats 1600000 in
/-- C1 (amended): per-candidate behaviour of an upload and the frame-boundary
commit.  The tracked per-frame best score is the maximum of the previous
best and the new candidate's score; while scanning, no upload decomposes or
touches the pending or committed camera (decomposition is deferred to the
frame boundary); in locked state a candidate scoring below the threshold 6
is discarded without touching the pending or committed camera; but in
locked state every candidate scoring at least 6 whose block decomposes
immediately overwrites the pending camera with its own decomposition —
even when it scores below the frame's current best — and the frame
boundary then commits that pending camera, so the committed camera is the
last qualifying candidate's decomposition, not necessarily the
highest-scoring one. -/
theorem C1_best_candidate (cfg : ProxyConfig) (s : DevState) (b : RawBlock) :
    (SetVertexShaderConstantF cfg s b).1.frameBestScore =
      max s.frameBestScore (ScoreAsVP b) ∧
    (s.detectState = .SCANNING →
      (SetVertexShaderConstantF cfg s b).1.lastView = s.lastView ∧
      (SetVertexShaderConstantF cfg s b).1.lastProj = s.lastProj ∧
      (SetVertexShaderConstantF cfg s b).1.lastGameProj = s.lastGameProj ∧
      (SetVertexShaderConstantF cfg s b).1.pendingView = s.pendingView ∧
      (SetVertexShaderConstantF cfg s b).1.pendingUpdate = s.pendingUpdate ∧
      (SetVertexShaderConstantF cfg s b).2 = []) ∧
    (ScoreAsVP b < 6 →
      (SetVertexShaderConstantF cfg s b).1.lastView = s.lastView ∧
      (SetVertexShaderConstantF cfg s b).1.pendingView = s.pendingView ∧
      (SetVertexShaderConstantF cfg s b).1.pendingUpdate = s.pendingUpdate) ∧
    (s.detectState = .LOCKED → s.hasCamera = true → 6 ≤ ScoreAsVP b →
      ∀ v p g, DecomposeVP_ColMajor cfg (toReals b) = some (v, p, g) →
        (SetVertexShaderConstantF cfg s b).1.pendingView = v ∧
        (SetVertexShaderConstantF cfg s b).1.pendingProj = p ∧
        (SetVertexShaderConstantF cfg s b).1.pendingGameProj = g ∧
        (SetVertexShaderConstantF cfg s b).1.pendingUpdate = true) ∧
    (s.detectState = .LOCKED → s.pendingUpdate = true → s.hasCamera = true →
      (Present cfg s).1.lastView = s.pendingView ∧
      (Present cfg s).1.lastProj = s.pendingProj ∧
      (Present cfg s).1.lastGameProj = s.pendingGameProj) := by
  refine ⟨?_, ?_, ?_, ?_, ?_⟩
  · rcases lt_or_le s.frameBestScore (ScoreAsVP b) with hb | hb
    · rw [max_eq_right hb.le]
      rcases hdec : DecomposeVP_ColMajor cfg (toReals b) with _ | ⟨v0, p0, g0⟩ <;>
        simp only [SetVertexShaderConstantF, hdec] <;>
        split_ifs <;> first | rfl | (exfalso; omega) | (simp_all; done)
    · rw [max_eq_left hb]
      rcases hdec : DecomposeVP_ColMajor cfg (toReals b) with _ | ⟨v0, p0, g0⟩ <;>
        simp only [SetVertexShaderConstantF, hdec] <;>
        split_ifs <;> first | rfl | (exfalso; omega) | (simp_all; done)
  · intro hs
    rcases hdec : DecomposeVP_ColMajor cfg (toReals b) with _ | ⟨v0, p0, g0⟩ <;>
      simp only [SetVertexShaderConstantF, hdec] <;>
      split_ifs <;>
      first | (refine ⟨rfl, rfl, rfl, rfl, rfl, rfl⟩) | simp_all
  · intro h6
    have hn : ¬ (ScoreAsVP b ≥ 6) := not_le.mpr h6
    rcases hdec : DecomposeVP_ColMajor cfg (toReals b) with _ | ⟨v0, p0, g0⟩ <;>
      simp only [SetVertexShaderConstantF, hdec] <;>
      split_ifs <;>
      first | (refine ⟨rfl, rfl, rfl⟩) | simp_all
  · intro hs hcam h6 v p g hd
    rw [upload_locked_pending cfg s b hs hcam h6 v p g hd]
    exact ⟨rfl, rfl, rfl, rfl⟩
  · intro hs hpu hcam
    rw [(present_locked_commit cfg s hs hpu hcam).1]
    exact ⟨rfl, rfl, rfl⟩

/-- Witness for the amended C1: in a locked state with a camera, the ideal
block at distance 100 (score 14, at least 6) makes its own decomposition
pending and `Present` commits the pending camera; a scanning upload leaves
the pending flag alone; and a NaN block (score 0, below 6) leaves the
pending camera alone. -/
theorem C1_best_candidate_witness :
    ((SetVertexShaderConstantF defaultConfig lockedInit
        (camBlockF 100)).1.pendingView = camView 100 ∧
      (SetVertexShaderConstantF defaultConfig lockedInit
        (camBlockF 100)).1.pendingUpdate = true ∧
      (Present defaultConfig lockedInit).1.lastView = lockedInit.pendingView) ∧
    (SetVertexShaderConstantF defaultConfig initState
      (camBlockF 100)).1.pendingUpdate = initState.pendingUpdate ∧
    (SetVertexShaderConstantF defaultConfig lockedInit
      (fun _ => FloatVal.nan)).1.pendingView = lockedInit.pendingView := by
  have hsc : 6 ≤ ScoreAsVP (camBlockF 100) := by
    rw [score_cam, if_pos (show (10:ℝ) < |(100:ℝ)| by norm_num)]; norm_num
  have hnan : ScoreAsVP (fun _ => FloatVal.nan) < 6 := by
    have hno : ¬ (∀ i : Fin 16, ((fun _ => FloatVal.nan) i).isfinite = true) :=
      fun hall => Bool.false_ne_true (hall 0)
    unfold ScoreAsVP
    rw [if_neg hno]
    norm_num
  obtain ⟨h1, h2, h3, h4, h5⟩ :=
    C1_best_candidate defaultConfig lockedInit (camBlockF 100)
  obtain ⟨p1, p2, p3, p4⟩ := h4 rfl rfl hsc (camView 100) (camProj defaultConfig)
    camGameProj
    (by rw [show toReals (camBlockF (100:ℝ)) = camBlock 100 from rfl]
        exact decompose_cam defaultConfig 100)
  refine ⟨⟨p1, p4, (h5 rfl rfl rfl).1⟩, ?_, ?_⟩
  · exact ((C1_best_candidate defaultConfig initState
      (camBlockF 100)).2.1 rfl).2.2.2.2.1
  · exact ((C1_best_candidate defaultConfig lockedInit
      (fun _ => FloatVal.nan)).2.2.1 hnan).2.1

/-- Counterexample to C1 as stated: in a locked frame seeing the
candidates `camBlockF 777` (score 14) and then `camBlockF 5` (score 12),
the committed view at the frame boundary is the decomposition of the
*lower-scoring, later* candidate `camBlockF 5`, not of the frame's
highest-scoring candidate — because every locked-mode candidate scoring at
least 6 is decomposed immediately and overwrites the pending camera. -/
theorem C1_best_candidate_counterexample :
    ScoreAsVP (camBlockF 5) < ScoreAsVP (camBlockF 777) ∧
    6 ≤ ScoreAsVP (camBlockF 5) ∧
    (run defaultConfig initState
      (frameEvents [camBlockF 1000, camBlockF 2000, camBlockF 3000] ++
        [.constantUpload (camBlockF 777), .constantUpload (camBlockF 5),
         .present])).1.lastView = camView 5 ∧
    camView 5 ≠ camView 777 := by
  have s777 : ScoreAsVP (camBlockF 777) = 14 := by
    rw [score_cam, if_pos (show (10:ℝ) < |(777:ℝ)| by norm_num)]; norm_num
  have s5 : ScoreAsVP (camBlockF 5) = 12 := by
    rw [score_cam, if_neg (show ¬ (10:ℝ) < |(5:ℝ)| by norm_num)]; norm_num
  refine ⟨by rw [s777, s5]; norm_num, by rw [s5]; norm_num, ?_, ?_⟩
  · have e1 : (camBlockF (1000:ℝ) 15).toReal = -1000 := rfl
    have e2 : (camBlockF (2000:ℝ) 15).toReal = -2000 := rfl
    have e3 : (camBlockF (3000:ℝ) 15).toReal = -3000 := rfl
    have hsc1 : 0 < ScoreAsVP (camBlockF 1000) := by
      rw [score_cam, if_pos (show (10:ℝ) < |(1000:ℝ)| by norm_num)]; norm_num
    have hsc2 : 0 < ScoreAsVP (camBlockF 2000) := by
      rw [score_cam, if_pos (show (10:ℝ) < |(2000:ℝ)| by norm_num)]; norm_num
    have hsc3 : 0 < ScoreAsVP (camBlockF 3000) := by
      rw [score_cam, if_pos (show (10:ℝ) < |(3000:ℝ)| by norm_num)]; norm_num
    obtain ⟨W1, W2, W3, W4⟩ := lock_three_frames defaultConfig (camBlockF 1000)
      (camBlockF 2000) (camBlockF 3000) hsc1 hsc2 hsc3
      (by rw [e1]; norm_num) (by rw [e2, e1]; norm_num) (by rw [e3, e2]; norm_num)
    obtain ⟨WV, WC⟩ := W4 (camView 3000) (camProj defaultConfig) camGameProj
      (by rw [show toReals (camBlockF (3000:ℝ)) = camBlock 3000 from rfl]
          exact decompose_cam defaultConfig 3000)
    rw [run_append]
    set S3 := (run defaultConfig initState
      (frameEvents [camBlockF 1000, camBlockF 2000, camBlockF 3000])).1 with hS3
    simp only [run, step]
    have h4 := upload_locked_pending defaultConfig S3 (camBlockF 777) W3 WC
      (by rw [s777]; norm_num) (camView 777) (camProj defaultConfig) camGameProj
      (by rw [show toReals (camBlockF (777:ℝ)) = camBlock 777 from rfl]
          exact decompose_cam defaultConfig 777)
    have hd5 : (SetVertexShaderConstantF defaultConfig S3
        (camBlockF 777)).1.detectState = .LOCKED := by rw [h4]; exact W3
    have hc5 : (SetVertexShaderConstantF defaultConfig S3
        (camBlockF 777)).1.hasCamera = true := by rw [h4]; exact WC
    have h5 := upload_locked_pending defaultConfig
      (SetVertexShaderConstantF defaultConfig S3 (camBlockF 777)).1
      (camBlockF 5) hd5 hc5
      (by rw [s5]; norm_num) (camView 5) (camProj defaultConfig) camGameProj
      (by rw [show toReals (camBlockF (5:ℝ)) = camBlock 5 from rfl]
          exact decompose_cam defaultConfig 5)
    have hd6 : (SetVertexShaderConstantF defaultConfig
        (SetVertexShaderConstantF defaultConfig S3 (camBlockF 777)).1
        (camBlockF 5)).1.detectState = .LOCKED := by rw [h5]; exact hd5
    have hpu6 : (SetVertexShaderConstantF defaultConfig
        (SetVertexShaderConstantF defaultConfig S3 (camBlockF 777)).1
        (camBlockF 5)).1.pendingUpdate = true := by rw [h5]
    have hc6 : (SetVertexShaderConstantF defaultConfig
        (SetVertexShaderConstantF defaultConfig S3 (camBlockF 777)).1
        (camBlockF 5)).1.hasCamera = true := by rw [h5]; exact hc5
    have h6 := (present_locked_commit defaultConfig
      (SetVertexShaderConstantF defaultConfig
        (SetVertexShaderConstantF defaultConfig S3 (camBlockF 777)).1
        (camBlockF 5)).1 hd6 hpu6 hc6).1
    rw [h6]
    show (SetVertexShaderConstantF defaultConfig
      (SetVertexShaderConstantF defaultConfig S3 (camBlockF 777)).1
      (camBlockF 5)).1.pendingView = camView 5
    rw [h5]
  · intro h
    have h32 := congrFun (congrFun h 3) 2
    rw [show camView (5:ℝ) 3 2 = -5 from rfl,
        show camView (777:ℝ) 3 2 = -777 from rfl] at h32
    norm_num at h32

end D3D9Proxy
